import Mathlib

/-!
Neon Snake: a shallow embedding of `script.js`.

The classes `Particle`, `Food`, `Snake` and `Game` of `script.js` are embedded as
structures with explicit state passing.

* Grid coordinates, canvas sizes and counters are integers (`Int`, `Nat`).
* `Math.random()` is a list of rational draws that is threaded through every
  function that calls it, in the order of the calls; a function that needs a draw
  when the list is empty yields `none` (the supplied draws do not suffice for the
  call to finish).
* A JavaScript `TypeError` (reading `segments[0].x` of an empty body, calling a
  method of an undefined `snake`) is `none`.
* A value of type Number is the rational it denotes. The product of a draw and a tile
  count in `Food.spawn` is rounded to the nearest binary64 value, as the operator `*`
  of the source does; time stamps and the `speed`, `life` and `decay` of a particle are
  exact rationals.
* Drawing (`draw`, the grid strokes, DOM updates) touches none of the modelled fields
  and is left out.
-/

namespace NeonSnake

/-! ## Game configuration -/

/-- Source: `const GRID_SIZE = 20`. -/
def GRID_SIZE : Int := 20

/-- Source: `const GAME_SPEED = 100` (milliseconds per tick). -/
def GAME_SPEED : ℚ := 100

/-- Source: `const COLOR_FOOD`. -/
def COLOR_FOOD : String := "#f0f"

/-- Source: `const COLOR_FOOD_ALT`. -/
def COLOR_FOOD_ALT : String := "#0ff"

/-! ## Numbers -/

/-- The integer nearest to `q`, the even one of the two when `q` lies halfway. -/
def roundHalfEven (q : ℚ) : ℤ :=
  let f := ⌊q⌋
  let d := q - f
  if d < 1 / 2 then f else if 1 / 2 < d then f + 1 else if f % 2 = 0 then f else f + 1

/-- The binary64 value nearest to `x`, ties to even: the Number an arithmetic operator of
the source returns when its exact result is `x`. The spacing of the binary64 values
around `x` is `2 ^ (e - 52)` with `e = floor(log2 |x|)`, and `2 ^ (-1074)` below
`2 ^ (-1022)`. Overflow to `Infinity`, from `2 ^ 1024` on, is not modelled. -/
def binary64 (x : ℚ) : ℚ :=
  if x = 0 then 0
  else
    let e : ℤ := max (Int.log 2 |x|) (-1022)
    let ulp : ℚ := 2 ^ (e - 52)
    roundHalfEven (x / ulp) * ulp

/-- The rational `x` is a value of type Number: a binary64 value. -/
def IsNumber (x : ℚ) : Prop := binary64 x = x

/-- A grid coordinate, the object literal with fields `x` and `y`. -/
structure Coord where
  x : Int
  y : Int
deriving DecidableEq, Repr

/-! ## Particle -/

/-- Class `Particle`. The velocity `(cos angle * speed, sin angle * speed)` with
`angle = angleTurns * 2π` is kept as its two rational ingredients, and the position as
the point `(x, y)` where the particle was created together with the number `age` of
`update()` calls: the position in the source is `(x + age * vx, y + age * vy)`. -/
structure Particle where
  x : Int
  y : Int
  color : String
  angleTurns : ℚ
  speed : ℚ
  life : ℚ
  decay : ℚ
  age : Nat
deriving DecidableEq

/-- The constructor of `Particle`: three calls of `Math.random()`, for the angle, the
speed and the decay, in this order. -/
def Particle.new (x y : Int) (color : String) : List ℚ → Option (Particle × List ℚ)
  | r1 :: r2 :: r3 :: rest =>
    some ({ x := x, y := y, color := color, angleTurns := r1, speed := r2 * 5 + 2,
            life := 1, decay := r3 * (3 / 100) + 2 / 100, age := 0 }, rest)
  | _ => none

/-- Method `Particle.update()`: one step along the velocity, `life -= decay`. -/
def Particle.update (p : Particle) : Particle :=
  { p with age := p.age + 1, life := p.life - p.decay }

/-! ## Food -/

/-- Class `Food` (the field `pulse` is only used for drawing). -/
structure Food where
  canvasWidth : Int
  canvasHeight : Int
  tilesX : Int
  tilesY : Int
  position : Coord
  color : String
deriving DecidableEq

/-- The inner `for` loop of `Food.spawn`: is some segment at `position`? -/
def Food.onSnake (snakeSegments : List Coord) (position : Coord) : Bool :=
  snakeSegments.any (fun segment => segment.x == position.x && segment.y == position.y)

/-- The `while (!valid)` loop of `Food.spawn`: every round takes two draws for the
candidate `(floor(r1 * tilesX), floor(r2 * tilesY))`, the products being Numbers, and
ends the loop when no segment is at the candidate. -/
def Food.spawnLoop (tilesX tilesY : Int) (snakeSegments : List Coord) :
    List ℚ → Option (Coord × List ℚ)
  | r1 :: r2 :: rest =>
    let position : Coord :=
      ⟨⌊binary64 (r1 * (tilesX : ℚ))⌋, ⌊binary64 (r2 * (tilesY : ℚ))⌋⟩
    if Food.onSnake snakeSegments position then
      Food.spawnLoop tilesX tilesY snakeSegments rest
    else some (position, rest)
  | _ => none

/-- Method `Food.spawn(snakeSegments)`: the rejection loop, then one more draw for the
colour. -/
def Food.spawn (f : Food) (snakeSegments : List Coord) (rnd : List ℚ) :
    Option (Food × List ℚ) :=
  match Food.spawnLoop f.tilesX f.tilesY snakeSegments rnd with
  | none => none
  | some (position, rnd1) =>
    match rnd1 with
    | [] => none
    | c :: rnd2 =>
      some ({ f with position := position,
                     color := if c > 1 / 2 then COLOR_FOOD else COLOR_FOOD_ALT }, rnd2)

/-- The constructor of `Food`: `Math.floor(canvasWidth / GRID_SIZE)` is the integer
quotient rounded down, which is `/` on `Int` for the positive divisor 20. The
constructor calls `spawn()` with the default empty segment list. -/
def Food.new (canvasWidth canvasHeight : Int) (rnd : List ℚ) : Option (Food × List ℚ) :=
  let f0 : Food :=
    { canvasWidth := canvasWidth, canvasHeight := canvasHeight,
      tilesX := canvasWidth / GRID_SIZE, tilesY := canvasHeight / GRID_SIZE,
      position := ⟨5, 5⟩, color := COLOR_FOOD }
  match f0.spawn [] rnd with
  | none => none
  | some (f, rnd1) => some ({ f with color := COLOR_FOOD }, rnd1)

/-! ## Snake -/

/-- Class `Snake`. The counter `growPending` starts at 0 and is only changed by `++`
and by a `--` guarded with `> 0`, so it is a natural number. -/
structure Snake where
  segments : List Coord
  direction : Coord
  nextDirection : Coord
  growPending : Nat
deriving DecidableEq

/-- The constructor of `Snake`. -/
def Snake.new : Snake :=
  { segments := [⟨10, 10⟩, ⟨9, 10⟩, ⟨8, 10⟩],
    direction := ⟨1, 0⟩, nextDirection := ⟨1, 0⟩, growPending := 0 }

/-- Method `Snake.setDirection(x, y)`. -/
def Snake.setDirection (s : Snake) (x y : Int) : Snake :=
  if s.direction.x + x = 0 ∧ s.direction.y + y = 0 then s
  else { s with nextDirection := ⟨x, y⟩ }

/-- Method `Snake.update()`; reading `segments[0].x` of an empty body throws. -/
def Snake.update (s : Snake) : Option Snake :=
  match s.segments with
  | [] => none
  | first :: rest =>
    let direction := s.nextDirection
    let head : Coord := ⟨first.x + direction.x, first.y + direction.y⟩
    let segments := head :: first :: rest
    if s.growPending > 0 then
      some { s with direction := direction, segments := segments,
                    growPending := s.growPending - 1 }
    else
      some { s with direction := direction, segments := segments.dropLast }

/-- Method `Snake.grow()`. -/
def Snake.grow (s : Snake) : Snake :=
  { s with growPending := s.growPending + 1 }

/-- Method `Snake.checkCollision(width, height)`; the `for` loop runs over the
segments of index 1 and up, which are the tail of the list. -/
def Snake.checkCollision (s : Snake) (width height : Int) : Option Bool :=
  match s.segments with
  | [] => none
  | head :: rest =>
    let tilesX := width / GRID_SIZE
    let tilesY := height / GRID_SIZE
    if head.x < 0 ∨ head.x ≥ tilesX ∨ head.y < 0 ∨ head.y ≥ tilesY then some true
    else if rest.any (fun segment => head.x == segment.x && head.y == segment.y) then
      some true
    else some false

/-! ## Game -/

/-- The three values of `Game.state`. -/
inductive GameState where
  | MENU
  | PLAYING
  | GAMEOVER
deriving DecidableEq, Repr

/-- Class `Game`: the canvas size, the touch origin and the fields set by the
constructor and by `initEntities`; `snake` and `food` are undefined before the first
`start()`. -/
structure Game where
  canvasWidth : Nat
  canvasHeight : Nat
  touchStartX : ℚ
  touchStartY : ℚ
  score : Nat
  highScore : Nat
  state : GameState
  lastTime : ℚ
  particles : List Particle
  accumulatedTime : ℚ
  snake : Option Snake
  food : Option Food
deriving DecidableEq

/-- Method `Game.resize()`, with the client size of the container as arguments. -/
def Game.resize (g : Game) (clientWidth clientHeight : Nat) : Game :=
  { g with canvasWidth := clientWidth - clientWidth % 20,
           canvasHeight := clientHeight - clientHeight % 20 }

/-- The call `this.snake.setDirection(x, y)`, which throws while `snake` is
undefined. -/
def Game.snakeSetDirection (g : Game) (x y : Int) : Option Game :=
  match g.snake with
  | none => none
  | some s => some { g with snake := some (s.setDirection x y) }

/-- Method `Game.input(e)`, with `e.key` as argument. -/
def Game.input (g : Game) (key : String) : Option Game :=
  if g.state ≠ GameState.PLAYING then some g
  else if key = "ArrowUp" ∨ key = "w" ∨ key = "W" then g.snakeSetDirection 0 (-1)
  else if key = "ArrowDown" ∨ key = "s" ∨ key = "S" then g.snakeSetDirection 0 1
  else if key = "ArrowLeft" ∨ key = "a" ∨ key = "A" then g.snakeSetDirection (-1) 0
  else if key = "ArrowRight" ∨ key = "d" ∨ key = "D" then g.snakeSetDirection 1 0
  else some g

/-- The `touchstart` listener. -/
def Game.touchStart (g : Game) (screenX screenY : ℚ) : Game :=
  { g with touchStartX := screenX, touchStartY := screenY }

/-- Method `Game.handleSwipe(endX, endY)`. -/
def Game.handleSwipe (g : Game) (endX endY : ℚ) : Option Game :=
  if g.state ≠ GameState.PLAYING then some g
  else
    let diffX := endX - g.touchStartX
    let diffY := endY - g.touchStartY
    let threshold : ℚ := 30
    if |diffX| > |diffY| then
      if |diffX| > threshold then
        if diffX > 0 then g.snakeSetDirection 1 0 else g.snakeSetDirection (-1) 0
      else some g
    else
      if |diffY| > threshold then
        if diffY > 0 then g.snakeSetDirection 0 1 else g.snakeSetDirection 0 (-1)
      else some g

/-- Method `Game.initEntities()`. -/
def Game.initEntities (g : Game) (rnd : List ℚ) : Option (Game × List ℚ) :=
  let snake := Snake.new
  match Food.new g.canvasWidth g.canvasHeight rnd with
  | none => none
  | some (food0, rnd1) =>
    match food0.spawn snake.segments rnd1 with
    | none => none
    | some (food, rnd2) =>
      some ({ g with snake := some snake, food := some food, particles := [],
                     score := 0, accumulatedTime := 0 }, rnd2)

/-- Method `Game.start()`. -/
def Game.start (g : Game) (rnd : List ℚ) : Option (Game × List ℚ) :=
  match g.initEntities rnd with
  | none => none
  | some (g1, rnd1) => some ({ g1 with state := GameState.PLAYING }, rnd1)

/-- Method `Game.restart()`. -/
def Game.restart (g : Game) (rnd : List ℚ) : Option (Game × List ℚ) :=
  g.start rnd

/-- Method `Game.gameOver()`. -/
def Game.gameOver (g : Game) : Game :=
  let g1 := { g with state := GameState.GAMEOVER }
  if g1.score > g1.highScore then { g1 with highScore := g1.score } else g1

/-- The `for` loop of `Game.createExplosion`, `n` rounds left. -/
def Game.createExplosionLoop (px py : Int) (color : String) :
    Nat → List Particle → List ℚ → Option (List Particle × List ℚ)
  | 0, particles, rnd => some (particles, rnd)
  | n + 1, particles, rnd =>
    match Particle.new px py color rnd with
    | none => none
    | some (p, rnd1) => Game.createExplosionLoop px py color n (particles ++ [p]) rnd1

/-- Method `Game.createExplosion(x, y, color)`. -/
def Game.createExplosion (g : Game) (x y : Int) (color : String) (rnd : List ℚ) :
    Option (Game × List ℚ) :=
  let px := x * GRID_SIZE + GRID_SIZE / 2
  let py := y * GRID_SIZE + GRID_SIZE / 2
  match Game.createExplosionLoop px py color 20 g.particles rnd with
  | none => none
  | some (particles, rnd1) => some ({ g with particles := particles }, rnd1)

/-- The eating step of `Game.loop` (the block under the comment `Eat Food`), on the
snake as it is after `update()`. -/
def Game.eatFood (g : Game) (snake : Snake) (rnd : List ℚ) : Option (Game × List ℚ) :=
  match snake.segments, g.food with
  | [], _ => none
  | _ :: _, none => none
  | head :: _, some food =>
    if head.x = food.position.x ∧ head.y = food.position.y then
      let g1 := { g with score := g.score + 10 }
      let snake1 := snake.grow
      match g1.createExplosion food.position.x food.position.y food.color rnd with
      | none => none
      | some (g2, rnd1) =>
        match food.spawn snake1.segments rnd1 with
        | none => none
        | some (food1, rnd2) =>
          some ({ g2 with snake := some snake1, food := some food1 }, rnd2)
    else some ({ g with snake := some snake }, rnd)

/-- One tick of `Game.loop`: the statements run once `accumulatedTime` has passed
`GAME_SPEED`, from `this.snake.update()` to the end of the eating step. There is no
`return` after `this.gameOver()`. -/
def Game.tick (g : Game) (rnd : List ℚ) : Option (Game × List ℚ) :=
  match g.snake with
  | none => none
  | some snake0 =>
    match snake0.update with
    | none => none
    | some snake =>
      match snake.checkCollision g.canvasWidth g.canvasHeight with
      | none => none
      | some collided =>
        let g1 := if collided then g.gameOver else g
        g1.eatFood snake rnd

/-- The last loop of `Game.loop`: every particle is updated, and spliced out of the list
when its `life` has reached 0. -/
def Game.updateParticles (g : Game) : Game :=
  { g with particles :=
      (g.particles.map Particle.update).filter (fun p => !decide (p.life ≤ 0)) }

/-- Method `Game.loop(timestamp)`, the state update of one animation frame: the clock,
the tick when `accumulatedTime` has passed `GAME_SPEED`, the particles. -/
def Game.loop (g : Game) (timestamp : ℚ) (rnd : List ℚ) : Option (Game × List ℚ) :=
  let deltaTime := timestamp - g.lastTime
  let g1 := { g with lastTime := timestamp }
  let played : Option (Game × List ℚ) :=
    if g1.state = GameState.PLAYING then
      let g2 := { g1 with accumulatedTime := g1.accumulatedTime + deltaTime }
      if g2.accumulatedTime > GAME_SPEED then
        Game.tick { g2 with accumulatedTime := 0 } rnd
      else some (g2, rnd)
    else some (g1, rnd)
  match played with
  | none => none
  | some (g3, rnd1) => some (g3.updateParticles, rnd1)

/-- The constructor of `Game`, with the client size of the container and the stored
high score as arguments: `resize()`, then the field initialisers. The constructor leaves
`accumulatedTime` undefined; it is 0 here and is not read before `initEntities` has set
it. -/
def Game.new (clientWidth clientHeight highScore : Nat) : Game :=
  { canvasWidth := clientWidth - clientWidth % 20,
    canvasHeight := clientHeight - clientHeight % 20,
    touchStartX := 0, touchStartY := 0, score := 0, highScore := highScore,
    state := GameState.MENU, lastTime := 0, particles := [], accumulatedTime := 0,
    snake := none, food := none }

/-! ## Vocabulary of the statements -/

/-- The food a `start()` places when all its draws are 0: at (0,0), in the alternative
colour. -/
def exampleFood (width height : Nat) : Food :=
  ⟨width, height, (width : Int) / 20, (height : Int) / 20, ⟨0, 0⟩, COLOR_FOOD_ALT⟩

/-- The game right after `start()` with all draws 0 on a new game whose container is
`width` by `height` pixels, both multiples of 20. -/
def exampleGame (width height : Nat) : Game :=
  { canvasWidth := width, canvasHeight := height,
    touchStartX := 0, touchStartY := 0, score := 0, highScore := 0,
    state := GameState.PLAYING, lastTime := 0, particles := [], accumulatedTime := 0,
    snake := some Snake.new, food := some (exampleFood width height) }

/-- The exact opposite `(-x, -y)` of a vector. -/
def Coord.opposite (d : Coord) : Coord := ⟨-d.x, -d.y⟩

/-- The four unit vectors the input handlers pass to `setDirection`. -/
def Coord.IsUnit (v : Coord) : Prop :=
  v = ⟨1, 0⟩ ∨ v = ⟨-1, 0⟩ ∨ v = ⟨0, 1⟩ ∨ v = ⟨0, -1⟩

/-- A sequence of `setDirection` calls with no `update()` in between. -/
def Snake.setDirections (s : Snake) (vs : List Coord) : Snake :=
  vs.foldl (fun t v => t.setDirection v.x v.y) s

/-- The game right after `start()` on a canvas of 600 by 400 pixels, with the food on
the cell in front of the head. -/
def exampleMeal : Game :=
  { exampleGame 600 400 with food := some ⟨600, 400, 30, 20, ⟨11, 10⟩, COLOR_FOOD⟩ }

/-- The snake states reachable from a newly constructed `Snake` by `setDirection` calls
with unit vectors and `update()` calls. -/
inductive Snake.Reachable : Snake → Prop
  | new : Snake.Reachable Snake.new
  | setDirection (s : Snake) (x y : Int) :
      Snake.Reachable s → Coord.IsUnit ⟨x, y⟩ → Snake.Reachable (s.setDirection x y)
  | update (s t : Snake) : Snake.Reachable s → s.update = some t → Snake.Reachable t

/-- The draws of `Math.random()` are Numbers in `[0, 1)`. -/
def Draws (rnd : List ℚ) : Prop := ∀ r ∈ rnd, IsNumber r ∧ 0 ≤ r ∧ r < 1

/-- The candidate position `Food.spawn` computes from two draws. -/
def Food.candidate (tilesX tilesY : Int) (p : ℚ × ℚ) : Coord :=
  ⟨⌊binary64 (p.1 * (tilesX : ℚ))⌋, ⌊binary64 (p.2 * (tilesY : ℚ))⌋⟩

/-- The draws of a run of loop rounds, in the order `Math.random()` is called. -/
def roundDraws : List (ℚ × ℚ) → List ℚ
  | [] => []
  | p :: ps => p.1 :: p.2 :: roundDraws ps

/-- The game states reachable in play: a `start()` (or `restart()`) from any state,
then key and touch inputs and animation frames, with all draws in `[0, 1)`. With
`resizable = false` the canvas is not resized after `start()`; with `resizable = true`
resize events may arrive at any moment. -/
inductive Game.Reachable (resizable : Bool) : Game → Prop
  | start (g0 g : Game) (rnd rnd1 : List ℚ) :
      Draws rnd → g0.start rnd = some (g, rnd1) → Game.Reachable resizable g
  | input (g g1 : Game) (key : String) :
      Game.Reachable resizable g → g.input key = some g1 → Game.Reachable resizable g1
  | touchStart (g : Game) (screenX screenY : ℚ) :
      Game.Reachable resizable g → Game.Reachable resizable (g.touchStart screenX screenY)
  | handleSwipe (g g1 : Game) (endX endY : ℚ) :
      Game.Reachable resizable g → g.handleSwipe endX endY = some g1 →
      Game.Reachable resizable g1
  | loop (g g1 : Game) (timestamp : ℚ) (rnd rnd1 : List ℚ) :
      Game.Reachable resizable g → Draws rnd → g.loop timestamp rnd = some (g1, rnd1) →
      Game.Reachable resizable g1
  | resize (g : Game) (clientWidth clientHeight : Nat) :
      resizable = true → Game.Reachable resizable g →
      Game.Reachable resizable (g.resize clientWidth clientHeight)

/-- The head of the body is outside the grid of `tilesX` by `tilesY` tiles, or on a
segment of index 1 and up. -/
def Collides (tilesX tilesY : Int) (head : Coord) (body : List Coord) : Prop :=
  ¬ (0 ≤ head.x ∧ head.x < tilesX ∧ 0 ≤ head.y ∧ head.y < tilesY) ∨ head ∈ body

instance (tilesX tilesY : Int) (head : Coord) (body : List Coord) :
    Decidable (Collides tilesX tilesY head body) := by
  unfold Collides; infer_instance

/-- The invariant of the reachable game states: snake and food exist, the body is not
empty and, while playing, free of duplicates; the food is on no segment and inside the
grid the `Food` was constructed with, which is the grid of the canvas as long as the
canvas is not resized. -/
def Game.Inv (resizable : Bool) (g : Game) : Prop :=
  ∃ s f, g.snake = some s ∧ g.food = some f ∧ s.segments ≠ [] ∧
    (g.state = GameState.PLAYING → s.segments.Nodup) ∧
    f.position ∉ s.segments ∧
    (1 ≤ f.tilesX → 1 ≤ f.tilesY →
      0 ≤ f.position.x ∧ f.position.x < f.tilesX ∧
      0 ≤ f.position.y ∧ f.position.y < f.tilesY) ∧
    (resizable = false →
      f.tilesX = (g.canvasWidth : Int) / 20 ∧ f.tilesY = (g.canvasHeight : Int) / 20)

/-! ## Snake: movement, collision, direction buffer -/

theorem Coord.eq_iff (a b : Coord) : a = b ↔ a.x = b.x ∧ a.y = b.y := by
  cases a; cases b; simp

theorem Snake.setDirection_direction (s : Snake) (x y : Int) :
    (s.setDirection x y).direction = s.direction := by
  unfold Snake.setDirection; split <;> rfl

theorem Snake.setDirection_segments (s : Snake) (x y : Int) :
    (s.setDirection x y).segments = s.segments := by
  unfold Snake.setDirection; split <;> rfl

theorem Snake.setDirection_growPending (s : Snake) (x y : Int) :
    (s.setDirection x y).growPending = s.growPending := by
  unfold Snake.setDirection; split <;> rfl

theorem Snake.setDirection_opposite (s : Snake) (v : Coord) (h : v = s.direction.opposite) :
    s.setDirection v.x v.y = s := by
  subst h
  simp [Snake.setDirection, Coord.opposite]

theorem Snake.setDirection_accept (s : Snake) (v : Coord) (h : v ≠ s.direction.opposite) :
    s.setDirection v.x v.y = { s with nextDirection := v } := by
  have hne : ¬ (s.direction.x + v.x = 0 ∧ s.direction.y + v.y = 0) := by
    rintro ⟨h1, h2⟩
    apply h
    rw [Coord.eq_iff]
    simp only [Coord.opposite]
    constructor <;> omega
  simp [Snake.setDirection, hne]

/-- Claim C1. For a snake with a non-empty body, `update()` returns, sets `direction`
to the buffered `nextDirection`, and the new body is the old head plus `nextDirection`
followed by the old body, without its last segment exactly when `growPending` was 0;
`growPending` goes down by 1 when it was positive and stays 0 otherwise, so the length
grows by exactly 1 when a credit was pending and is unchanged otherwise. From the
initial snake one update gives the body (11,10), (10,10), (9,10). -/
theorem Snake.update_spec (s : Snake) (h : s.segments ≠ []) :
    (∃ t, s.update = some t ∧
      t.direction = s.nextDirection ∧ t.nextDirection = s.nextDirection ∧
      t.segments =
        ⟨(s.segments.head h).x + s.nextDirection.x,
         (s.segments.head h).y + s.nextDirection.y⟩ ::
          (if s.growPending = 0 then s.segments.dropLast else s.segments) ∧
      (0 < s.growPending → t.growPending + 1 = s.growPending ∧
        t.segments.length = s.segments.length + 1) ∧
      (s.growPending = 0 → t.growPending = 0 ∧
        t.segments.length = s.segments.length)) ∧
    Snake.new.update.map Snake.segments = some [⟨11, 10⟩, ⟨10, 10⟩, ⟨9, 10⟩] := by
  refine ⟨?_, by decide⟩
  obtain ⟨segs, dir, nd, gp⟩ := s
  cases segs with
  | nil => exact absurd rfl h
  | cons first rest =>
    by_cases hg : gp = 0
    · subst hg
      refine ⟨⟨(⟨first.x + nd.x, first.y + nd.y⟩ :: first :: rest).dropLast, nd, nd, 0⟩,
        by simp [Snake.update], rfl, rfl, by simp, ?_, ?_⟩
      · intro h0; exact absurd h0 (Nat.lt_irrefl 0)
      · intro _
        exact ⟨rfl, by simp⟩
    · have hpos : 0 < gp := Nat.pos_of_ne_zero hg
      refine ⟨⟨⟨first.x + nd.x, first.y + nd.y⟩ :: first :: rest, nd, nd, gp - 1⟩,
        by simp [Snake.update, hpos], rfl, rfl, by simp [hg], ?_, ?_⟩
      · intro _
        exact ⟨by simp; omega, by simp⟩
      · intro h0; exact absurd h0 hg

/-- Witness of C1: a two-segment snake that turns upwards with one credit pending. -/
theorem Snake.update_spec_witness :
    (⟨[⟨3, 4⟩, ⟨2, 4⟩], ⟨1, 0⟩, ⟨0, -1⟩, 1⟩ : Snake).segments ≠ [] ∧
    (⟨[⟨3, 4⟩, ⟨2, 4⟩], ⟨1, 0⟩, ⟨0, -1⟩, 1⟩ : Snake).update.map Snake.segments =
      some [⟨3, 3⟩, ⟨3, 4⟩, ⟨2, 4⟩] := by
  refine ⟨by simp, ?_⟩
  obtain ⟨⟨t, ht, _, _, hseg, _, _⟩, _⟩ :=
    Snake.update_spec ⟨[⟨3, 4⟩, ⟨2, 4⟩], ⟨1, 0⟩, ⟨0, -1⟩, 1⟩ (by simp)
  rw [ht]
  simpa using hseg

theorem Snake.checkCollision_any_iff (head : Coord) (rest : List Coord) :
    rest.any (fun segment => head.x == segment.x && head.y == segment.y) = true ↔
      head ∈ rest := by
  simp only [List.any_eq_true, Bool.and_eq_true, beq_iff_eq]
  constructor
  · rintro ⟨c, hc, hx, hy⟩
    have : head = c := (Coord.eq_iff head c).2 ⟨hx, hy⟩
    exact this ▸ hc
  · intro hm
    exact ⟨head, hm, rfl, rfl⟩

theorem Snake.mem_tail_iff (head : Coord) (rest : List Coord) :
    head ∈ rest ↔
      ∃ i, ∃ hi : i < (head :: rest).length, 1 ≤ i ∧ (head :: rest)[i] = head := by
  constructor
  · intro hm
    obtain ⟨k, hk, hget⟩ := List.getElem_of_mem hm
    exact ⟨k + 1, by simpa using hk, by omega, by simpa using hget⟩
  · rintro ⟨i, hi, h1, hget⟩
    obtain ⟨k, rfl⟩ : ∃ k, i = k + 1 := ⟨i - 1, by omega⟩
    simp only [List.getElem_cons_succ] at hget
    exact hget ▸ List.getElem_mem _

theorem Snake.checkCollision_cons (s : Snake) (head : Coord) (rest : List Coord)
    (width height : Int) (h : s.segments = head :: rest) :
    s.checkCollision width height =
      some (decide (¬ (0 ≤ head.x ∧ head.x < width / 20 ∧ 0 ≤ head.y ∧ head.y < height / 20)
        ∨ head ∈ rest)) := by
  unfold Snake.checkCollision
  rw [h]
  simp only [GRID_SIZE]
  by_cases hw : head.x < 0 ∨ head.x ≥ width / 20 ∨ head.y < 0 ∨ head.y ≥ height / 20
  · rw [if_pos hw]
    congr 1
    symm
    rw [decide_eq_true_iff]
    left
    omega
  · rw [if_neg hw]
    have hin : 0 ≤ head.x ∧ head.x < width / 20 ∧ 0 ≤ head.y ∧ head.y < height / 20 := by
      omega
    by_cases hm : head ∈ rest
    · rw [if_pos ((Snake.checkCollision_any_iff head rest).2 hm)]
      congr 1
      symm
      rw [decide_eq_true_iff]
      exact Or.inr hm
    · rw [if_neg (fun hc => hm ((Snake.checkCollision_any_iff head rest).1 hc))]
      congr 1
      symm
      rw [decide_eq_false_iff_not]
      rintro (hc | hc)
      · exact hc hin
      · exact hm hc

/-- Claim C2. For a snake with a non-empty body and any canvas width and height,
`checkCollision(width, height)` returns, and it returns true if and only if the head
lies outside `[0, floor(width/20)) x [0, floor(height/20))` or the head's coordinate is
the coordinate of some segment of index at least 1. A one-segment snake whose head is
inside the grid does not collide, and a head at (30,5) on a grid 30 tiles wide does. -/
theorem Snake.checkCollision_spec (s : Snake) (width height : Int) (h : s.segments ≠ []) :
    (∃ b, s.checkCollision width height = some b ∧
      (b = true ↔
        (¬ (0 ≤ (s.segments.head h).x ∧ (s.segments.head h).x < width / 20 ∧
            0 ≤ (s.segments.head h).y ∧ (s.segments.head h).y < height / 20) ∨
         ∃ i, ∃ hi : i < s.segments.length, 1 ≤ i ∧ s.segments[i] = s.segments.head h))) ∧
    (s.segments.length = 1 →
      0 ≤ (s.segments.head h).x → (s.segments.head h).x < width / 20 →
      0 ≤ (s.segments.head h).y → (s.segments.head h).y < height / 20 →
      s.checkCollision width height = some false) ∧
    (width / 20 = 30 → s.segments.head h = ⟨30, 5⟩ →
      s.checkCollision width height = some true) := by
  obtain ⟨segs, dir, nd, gp⟩ := s
  cases segs with
  | nil => exact absurd rfl h
  | cons head rest =>
    have hc := Snake.checkCollision_cons ⟨head :: rest, dir, nd, gp⟩ head rest width height rfl
    simp only [List.head_cons]
    refine ⟨⟨_, hc, ?_⟩, ?_, ?_⟩
    · rw [decide_eq_true_iff, Snake.mem_tail_iff]
    · intro hlen h1 h2 h3 h4
      rw [hc]
      have hrest : rest = [] := by
        cases rest with
        | nil => rfl
        | cons a l => simp at hlen
      subst hrest
      congr 1
      rw [decide_eq_false_iff_not]
      rintro (hn | hn)
      · exact hn ⟨h1, h2, h3, h4⟩
      · simp at hn
    · intro hw hhead
      rw [hc]
      congr 1
      rw [decide_eq_true_iff]
      left
      rw [hhead, hw]
      intro hn
      exact absurd hn.2.1 (by decide)

/-- Witness of C2: a head that has run onto segment 2 of a five-segment body. -/
theorem Snake.checkCollision_spec_witness :
    (⟨[⟨5, 5⟩, ⟨5, 6⟩, ⟨5, 5⟩, ⟨4, 5⟩, ⟨4, 6⟩], ⟨0, -1⟩, ⟨0, -1⟩, 0⟩ : Snake).segments ≠ [] ∧
    (⟨[⟨5, 5⟩, ⟨5, 6⟩, ⟨5, 5⟩, ⟨4, 5⟩, ⟨4, 6⟩], ⟨0, -1⟩, ⟨0, -1⟩, 0⟩ : Snake).checkCollision
      600 400 = some true := by
  refine ⟨by simp, ?_⟩
  obtain ⟨⟨b, hb, hiff⟩, _, _⟩ :=
    Snake.checkCollision_spec
      ⟨[⟨5, 5⟩, ⟨5, 6⟩, ⟨5, 5⟩, ⟨4, 5⟩, ⟨4, 6⟩], ⟨0, -1⟩, ⟨0, -1⟩, 0⟩ 600 400 (by simp)
  rw [hb]
  congr 1
  rw [hiff]
  right
  exact ⟨2, by simp, by decide, by simp⟩

theorem Snake.update_cons (s : Snake) (first : Coord) (rest : List Coord)
    (h : s.segments = first :: rest) :
    s.update = some
      { segments := ⟨first.x + s.nextDirection.x, first.y + s.nextDirection.y⟩ ::
          (if s.growPending = 0 then (first :: rest).dropLast else first :: rest),
        direction := s.nextDirection, nextDirection := s.nextDirection,
        growPending := s.growPending - 1 } := by
  obtain ⟨segs, dir, nd, gp⟩ := s
  simp only at h
  subst h
  by_cases hg : gp = 0
  · subst hg
    simp [Snake.update]
  · have hpos : 0 < gp := Nat.pos_of_ne_zero hg
    simp [Snake.update, hpos, hg]

theorem Snake.update_isSome (s : Snake) (h : s.segments ≠ []) : ∃ t, s.update = some t := by
  cases hs : s.segments with
  | nil => exact absurd hs h
  | cons first rest => exact ⟨_, Snake.update_cons s first rest hs⟩

theorem Snake.update_some (s t : Snake) (h : s.update = some t) :
    ∃ first rest, s.segments = first :: rest ∧
      t.segments = ⟨first.x + s.nextDirection.x, first.y + s.nextDirection.y⟩ ::
          (if s.growPending = 0 then (first :: rest).dropLast else first :: rest) ∧
      t.direction = s.nextDirection ∧ t.nextDirection = s.nextDirection ∧
      t.growPending = s.growPending - 1 := by
  cases hs : s.segments with
  | nil => simp [Snake.update, hs] at h
  | cons first rest =>
    rw [Snake.update_cons s first rest hs] at h
    have ht : _ = t := Option.some.inj h
    subst ht
    exact ⟨first, rest, rfl, rfl, rfl, rfl, rfl⟩

theorem getLast?_cons_getD {α : Type} (v d : α) (l : List α) :
    (v :: l).getLast?.getD d = l.getLast?.getD v := by
  cases l with
  | nil => rfl
  | cons a l =>
    rw [List.getLast?_cons_cons]
    cases hl : (a :: l).getLast? with
    | none => simp [List.getLast?_eq_none_iff] at hl
    | some b => rfl

/-- Claim C3. After any finite sequence of `setDirection` calls with no `update()` in
between, `nextDirection` is the last vector of the sequence that is not the exact
opposite of `direction`, or the previous `nextDirection` when every vector of the
sequence is that opposite; `direction`, `segments` and `growPending` are unchanged. A
single call with the exact opposite of `direction` leaves the whole state unchanged.
This holds for all integer vectors, the unit vectors among them. -/
theorem Snake.setDirections_spec (s : Snake) (vs : List Coord) :
    (s.setDirections vs).nextDirection =
      ((vs.filter (fun v => decide (v ≠ s.direction.opposite))).getLast?).getD
        s.nextDirection ∧
    (s.setDirections vs).direction = s.direction ∧
    (s.setDirections vs).segments = s.segments ∧
    (s.setDirections vs).growPending = s.growPending ∧
    s.setDirection (-s.direction.x) (-s.direction.y) = s := by
  refine ⟨?_, ?_, ?_, ?_, Snake.setDirection_opposite s s.direction.opposite rfl⟩
  · induction vs generalizing s with
    | nil => rfl
    | cons v vs ih =>
      have hstep : s.setDirections (v :: vs) = (s.setDirection v.x v.y).setDirections vs := rfl
      rw [hstep, ih, Snake.setDirection_direction]
      by_cases hv : v = s.direction.opposite
      · rw [Snake.setDirection_opposite s v hv]
        simp [hv]
      · rw [Snake.setDirection_accept s v hv]
        simp only [List.filter_cons, hv, ne_eq, not_false_eq_true, decide_True, if_true]
        rw [getLast?_cons_getD]
  · induction vs generalizing s with
    | nil => rfl
    | cons v vs ih =>
      have hstep : s.setDirections (v :: vs) = (s.setDirection v.x v.y).setDirections vs := rfl
      rw [hstep, ih, Snake.setDirection_direction]
  · induction vs generalizing s with
    | nil => rfl
    | cons v vs ih =>
      have hstep : s.setDirections (v :: vs) = (s.setDirection v.x v.y).setDirections vs := rfl
      rw [hstep, ih, Snake.setDirection_segments]
  · induction vs generalizing s with
    | nil => rfl
    | cons v vs ih =>
      have hstep : s.setDirections (v :: vs) = (s.setDirection v.x v.y).setDirections vs := rfl
      rw [hstep, ih, Snake.setDirection_growPending]

theorem Snake.reachable_direction_invariant (s : Snake) (h : Snake.Reachable s) :
    s.segments ≠ [] ∧ Coord.IsUnit s.nextDirection ∧
    ¬ (s.nextDirection.x + s.direction.x = 0 ∧ s.nextDirection.y + s.direction.y = 0) := by
  induction h with
  | new => exact ⟨by simp [Snake.new], Or.inl rfl, by simp [Snake.new]⟩
  | setDirection s x y _ hu ih =>
    obtain ⟨h1, h2, h3⟩ := ih
    unfold Snake.setDirection
    split
    · exact ⟨h1, h2, h3⟩
    · rename_i hne
      refine ⟨h1, hu, ?_⟩
      simp only
      intro hc
      exact hne ⟨by omega, by omega⟩
  | update s t _ hupd ih =>
    obtain ⟨h1, h2, _⟩ := ih
    obtain ⟨first, rest, _, hseg, hdir, hnd, _⟩ := Snake.update_some s t hupd
    refine ⟨by rw [hseg]; simp, hnd ▸ h2, ?_⟩
    rw [hdir, hnd]
    rcases h2 with h2 | h2 | h2 | h2 <;> rw [h2] <;> simp

/-- Claim C4. In every state reachable from a newly constructed `Snake` by
`setDirection` calls with unit vectors and `update()` calls, `nextDirection` is not the
exact opposite of `direction`; the next `update()` returns and the direction it moves in
is not the exact opposite of the direction of the tick before. -/
theorem Snake.no_reversal (s : Snake) (h : Snake.Reachable s) :
    ¬ (s.nextDirection.x + s.direction.x = 0 ∧ s.nextDirection.y + s.direction.y = 0) ∧
    ∃ t, s.update = some t ∧
      ¬ (t.direction.x + s.direction.x = 0 ∧ t.direction.y + s.direction.y = 0) := by
  obtain ⟨h1, _, h3⟩ := Snake.reachable_direction_invariant s h
  refine ⟨h3, ?_⟩
  obtain ⟨t, ht⟩ := Snake.update_isSome s h1
  obtain ⟨_, _, _, _, hdir, _, _⟩ := Snake.update_some s t ht
  exact ⟨t, ht, hdir ▸ h3⟩

/-- Witness of C4: the snake after a turn upwards, one tick, and a rejected attempt to
turn downwards. -/
theorem Snake.no_reversal_witness :
    Snake.Reachable ⟨[⟨10, 9⟩, ⟨10, 10⟩, ⟨9, 10⟩], ⟨0, -1⟩, ⟨0, -1⟩, 0⟩ ∧
    ¬ ((0 : Int) + 0 = 0 ∧ (-1 : Int) + -1 = 0) := by
  have hr : Snake.Reachable ⟨[⟨10, 9⟩, ⟨10, 10⟩, ⟨9, 10⟩], ⟨0, -1⟩, ⟨0, -1⟩, 0⟩ := by
    have h1 := Snake.Reachable.setDirection _ 0 (-1) Snake.Reachable.new
      (Or.inr (Or.inr (Or.inr rfl)))
    have h2 := Snake.Reachable.update _ ⟨[⟨10, 9⟩, ⟨10, 10⟩, ⟨9, 10⟩], ⟨0, -1⟩, ⟨0, -1⟩, 0⟩
      h1 (by decide)
    have h3 := Snake.Reachable.setDirection _ 0 1 h2 (Or.inr (Or.inr (Or.inl rfl)))
    exact h3
  exact ⟨hr, (Snake.no_reversal _ hr).1⟩

/-! ## Food: rejection sampling -/

theorem Food.onSnake_iff (segments : List Coord) (position : Coord) :
    Food.onSnake segments position = true ↔ position ∈ segments := by
  simp only [Food.onSnake, List.any_eq_true, Bool.and_eq_true, beq_iff_eq]
  constructor
  · rintro ⟨c, hc, hx, hy⟩
    have : c = position := (Coord.eq_iff c position).2 ⟨hx, hy⟩
    exact this ▸ hc
  · intro hm
    exact ⟨position, hm, rfl, rfl⟩

theorem roundHalfEven_le (q : ℚ) : (roundHalfEven q : ℚ) ≤ q + 1 / 2 := by
  have h1 : ((⌊q⌋ : ℤ) : ℚ) ≤ q := Int.floor_le q
  unfold roundHalfEven
  simp only
  split_ifs with a b c
  · linarith
  · push_cast; linarith
  · linarith
  · push_cast; linarith

theorem roundHalfEven_nonneg (q : ℚ) (h : 0 ≤ q) : 0 ≤ roundHalfEven q := by
  have h1 : 0 ≤ ⌊q⌋ := Int.floor_nonneg.2 h
  unfold roundHalfEven
  simp only
  split_ifs <;> omega

theorem roundHalfEven_intCast (z : ℤ) : roundHalfEven (z : ℚ) = z := by
  unfold roundHalfEven
  simp

theorem binary64_zero : binary64 0 = 0 := by
  simp [binary64]

theorem binary64_pos (x : ℚ) (hx : 0 < x) :
    binary64 x =
      roundHalfEven (x / 2 ^ (max (Int.log 2 x) (-1022) - 52)) *
        2 ^ (max (Int.log 2 x) (-1022) - 52) := by
  unfold binary64
  rw [if_neg hx.ne', abs_of_pos hx]

theorem binary64_nonneg (x : ℚ) (hx : 0 ≤ x) : 0 ≤ binary64 x := by
  rcases hx.eq_or_lt with h | h
  · rw [← h, binary64_zero]
  · rw [binary64_pos x h]
    have hu : (0 : ℚ) < 2 ^ (max (Int.log 2 x) (-1022) - 52) := zpow_pos (by norm_num) _
    have hq : 0 ≤ roundHalfEven (x / 2 ^ (max (Int.log 2 x) (-1022) - 52)) :=
      roundHalfEven_nonneg _ (div_nonneg h.le hu.le)
    exact mul_nonneg (by exact_mod_cast hq) hu.le

theorem binary64_le_add (x : ℚ) (hx : 0 < x) :
    binary64 x ≤ x + 2 ^ (max (Int.log 2 x) (-1022)) / 2 ^ 53 := by
  rw [binary64_pos x hx]
  set ec : ℤ := max (Int.log 2 x) (-1022) with hec
  have hu : (0 : ℚ) < 2 ^ (ec - 52) := zpow_pos (by norm_num) _
  have hsplit : (2 : ℚ) ^ (ec - 52) = 2 ^ ec / 2 ^ 52 := by
    rw [zpow_sub₀ (by norm_num : (2 : ℚ) ≠ 0)]
    norm_num
  have h1 := roundHalfEven_le (x / 2 ^ (ec - 52))
  calc (roundHalfEven (x / 2 ^ (ec - 52)) : ℚ) * 2 ^ (ec - 52)
      ≤ (x / 2 ^ (ec - 52) + 1 / 2) * 2 ^ (ec - 52) := mul_le_mul_of_nonneg_right h1 hu.le
    _ = x + 2 ^ (ec - 52) / 2 := by field_simp; ring
    _ = x + 2 ^ ec / 2 ^ 53 := by rw [hsplit]; ring

theorem zpow_clamp_lt (x n : ℚ) (hx : 0 < x) (hxn : x < n) (hn : 1 ≤ n) :
    (2 : ℚ) ^ (max (Int.log 2 x) (-1022)) < n := by
  rcases max_cases (Int.log 2 x) (-1022) with ⟨h, _⟩ | ⟨h, _⟩
  · rw [h]
    exact lt_of_le_of_lt (Int.zpow_log_le_self (by norm_num) hx) hxn
  · rw [h]
    have : (2 : ℚ) ^ (-1022 : ℤ) < 1 := by
      rw [zpow_neg]
      exact inv_lt_one_of_one_lt₀ (one_lt_zpow₀ (by norm_num) (by norm_num))
    linarith

theorem binary64_mul_lt (r : ℚ) (n : ℤ) (h0 : 0 < r) (hr : r ≤ 1 - 1 / 2 ^ 53) (hn : 1 ≤ n) :
    binary64 (r * n) < n := by
  have hn1 : (1 : ℚ) ≤ (n : ℚ) := by exact_mod_cast hn
  have hx : 0 < r * (n : ℚ) := mul_pos h0 (by linarith)
  have hgap : r * (n : ℚ) ≤ (n : ℚ) - (n : ℚ) / 2 ^ 53 := by
    have := mul_le_mul_of_nonneg_right hr (by linarith : (0 : ℚ) ≤ (n : ℚ))
    calc r * (n : ℚ) ≤ (1 - 1 / 2 ^ 53) * (n : ℚ) := this
      _ = (n : ℚ) - (n : ℚ) / 2 ^ 53 := by ring
  have hpos : (0 : ℚ) < (n : ℚ) / 2 ^ 53 := by positivity
  have hxn : r * (n : ℚ) < n := by linarith
  have hc := zpow_clamp_lt (r * n) n hx hxn hn1
  have hdiv : (2 : ℚ) ^ (max (Int.log 2 (r * (n : ℚ))) (-1022)) / 2 ^ 53 < (n : ℚ) / 2 ^ 53 :=
    div_lt_div_of_pos_right hc (by positivity)
  have := binary64_le_add (r * n) hx
  linarith

theorem IsNumber.le_pred_one (r : ℚ) (hd : IsNumber r) (h0 : 0 < r) (h1 : r < 1) :
    r ≤ 1 - 1 / 2 ^ 53 := by
  have hlog : Int.log 2 r < 0 := by
    rw [← Int.lt_zpow_iff_log_lt (by norm_num) h0]
    simpa using h1
  by_cases he : Int.log 2 r ≤ -2
  · have hlt := Int.lt_zpow_succ_log_self (by norm_num : 1 < 2) r
    have hle : ((2 : ℕ) : ℚ) ^ (Int.log 2 r + 1) ≤ ((2 : ℕ) : ℚ) ^ (-1 : ℤ) :=
      zpow_le_zpow_right₀ (by norm_num) (by omega)
    have h2 : ((2 : ℕ) : ℚ) ^ (-1 : ℤ) = 1 / 2 := by norm_num
    have h3 : (1 : ℚ) / 2 ≤ 1 - 1 / 2 ^ 53 := by norm_num
    exact (lt_of_lt_of_le hlt (hle.trans (h2.le.trans h3))).le
  · have he1 : Int.log 2 r = -1 := by omega
    have hb := binary64_pos r h0
    rw [he1] at hb
    have hmax : max (-1 : ℤ) (-1022) - 52 = -53 := by decide
    rw [hmax] at hb
    unfold IsNumber at hd
    rw [hd] at hb
    set K : ℤ := roundHalfEven (r / 2 ^ (-53 : ℤ)) with hK
    have hpow : (2 : ℚ) ^ (-53 : ℤ) = 1 / 2 ^ 53 := by
      rw [zpow_neg]; norm_num
    rw [hpow] at hb
    have hKlt : (K : ℚ) < 2 ^ 53 := by
      have : (K : ℚ) * (1 / 2 ^ 53) < 1 := hb ▸ h1
      have h53 : (0 : ℚ) < 2 ^ 53 := by positivity
      calc (K : ℚ) = (K : ℚ) * (1 / 2 ^ 53) * 2 ^ 53 := by field_simp
        _ < 1 * 2 ^ 53 := mul_lt_mul_of_pos_right this h53
        _ = 2 ^ 53 := one_mul _
    have hKint : K < 2 ^ 53 := by exact_mod_cast hKlt
    have hKle : (K : ℚ) ≤ 2 ^ 53 - 1 := by
      have : K ≤ 2 ^ 53 - 1 := by omega
      exact_mod_cast this
    rw [hb]
    calc (K : ℚ) * (1 / 2 ^ 53) ≤ (2 ^ 53 - 1) * (1 / 2 ^ 53) :=
          mul_le_mul_of_nonneg_right hKle (by positivity)
      _ = 1 - 1 / 2 ^ 53 := by ring

theorem binary64_exact (x : ℚ) (m : ℤ) (k : ℕ) (hx : x * 2 ^ k = m) (hm : |m| < 2 ^ 53)
    (hk : k ≤ 1074) : binary64 x = x := by
  by_cases h0 : x = 0
  · rw [h0, binary64_zero]
  · have hk0 : (0 : ℚ) < 2 ^ k := by positivity
    have hxm : x = (m : ℚ) / 2 ^ k := by rw [← hx]; field_simp
    have habs : 0 < |x| := abs_pos.2 h0
    have hlt : |x| < (2 : ℚ) ^ (53 - (k : ℤ)) := by
      have hmq : |(m : ℚ)| < 2 ^ 53 := by exact_mod_cast hm
      have h53 : (2 : ℚ) ^ (53 : ℤ) = 2 ^ 53 := by norm_num
      rw [hxm, abs_div, abs_of_pos hk0, zpow_sub₀ (by norm_num), zpow_natCast, h53]
      exact div_lt_div_of_pos_right hmq hk0
    have hlog : Int.log 2 |x| < 53 - (k : ℤ) :=
      (Int.lt_zpow_iff_log_lt (by norm_num) habs).1 (by rw [Nat.cast_ofNat]; exact hlt)
    obtain ⟨J, hJ⟩ : ∃ J : ℕ, max (Int.log 2 |x|) (-1022) - 52 = -((J + k : ℕ) : ℤ) :=
      ⟨(52 - max (Int.log 2 |x|) (-1022) - k).toNat, by
        rcases max_cases (Int.log 2 |x|) (-1022) with ⟨h, _⟩ | ⟨h, _⟩ <;> rw [h] <;>
          push_cast <;> omega⟩
    unfold binary64
    rw [if_neg h0]
    simp only
    rw [hJ, zpow_neg, zpow_natCast]
    have hJk : (0 : ℚ) < 2 ^ (J + k) := by positivity
    have hq : x / ((2 : ℚ) ^ (J + k))⁻¹ = ((m * 2 ^ J : ℤ) : ℚ) := by
      rw [div_inv_eq_mul, pow_add, hxm]
      push_cast
      field_simp
      ring
    rw [hq, roundHalfEven_intCast, hxm, pow_add]
    push_cast
    field_simp
    ring

theorem floor_draw_bounds (r : ℚ) (n : Int) (hd : IsNumber r) (h0 : 0 ≤ r) (h1 : r < 1)
    (hn : 1 ≤ n) :
    0 ≤ ⌊binary64 (r * (n : ℚ))⌋ ∧ ⌊binary64 (r * (n : ℚ))⌋ < n := by
  have hnq : (0 : ℚ) ≤ (n : ℚ) := by exact_mod_cast (by omega : (0 : Int) ≤ n)
  constructor
  · rw [Int.floor_nonneg]
    exact binary64_nonneg _ (mul_nonneg h0 hnq)
  · rw [Int.floor_lt]
    rcases h0.eq_or_lt with hz | hpos
    · rw [← hz, zero_mul, binary64_zero]
      exact_mod_cast (by omega : (0 : Int) < n)
    · exact binary64_mul_lt r n hpos (IsNumber.le_pred_one r hd hpos h1) hn

theorem Food.candidate_on_snake : Food.candidate 30 20 (11 / 32, 1 / 2) = ⟨10, 10⟩ := by
  have e1 : binary64 (165 / 16) = 165 / 16 :=
    binary64_exact _ 165 4 (by norm_num) (by norm_num) (by norm_num)
  have e2 : binary64 10 = 10 := binary64_exact _ 10 0 (by norm_num) (by norm_num) (by norm_num)
  have f1 : ⌊(165 / 16 : ℚ)⌋ = 10 := by rw [Int.floor_eq_iff]; norm_num
  norm_num [Food.candidate, e1, e2, f1]

theorem Food.candidate_left_edge : Food.candidate 30 20 (0, 1 / 4) = ⟨0, 5⟩ := by
  have e2 : binary64 5 = 5 := binary64_exact _ 5 0 (by norm_num) (by norm_num) (by norm_num)
  norm_num [Food.candidate, binary64_zero, e2]

theorem Food.candidate_ahead : Food.candidate 30 20 (3 / 8, 1 / 2) = ⟨11, 10⟩ := by
  have e1 : binary64 (45 / 4) = 45 / 4 :=
    binary64_exact _ 45 2 (by norm_num) (by norm_num) (by norm_num)
  have e2 : binary64 10 = 10 := binary64_exact _ 10 0 (by norm_num) (by norm_num) (by norm_num)
  have f1 : ⌊(45 / 4 : ℚ)⌋ = 11 := by rw [Int.floor_eq_iff]; norm_num
  norm_num [Food.candidate, e1, e2, f1]

theorem Food.candidate_zero (tilesX tilesY : Int) :
    Food.candidate tilesX tilesY (0, 0) = ⟨0, 0⟩ := by
  simp [Food.candidate, binary64_zero]

theorem Draws.examples :
    Draws [0, 0, 0, 11 / 32, 1 / 2, 0, 1 / 4, 3 / 4] ∧ Draws [0, 0, 0, 3 / 8, 1 / 2, 3 / 4] ∧
    Draws [11 / 32, 1 / 2, 0, 1 / 4, 3 / 4] ∧ Draws [0, 0, 0, 0, 0, 0] ∧
    Draws (List.replicate 60 0 ++ [0, 0, 0]) := by
  have n0 : IsNumber 0 := binary64_zero
  have n1 : IsNumber (11 / 32) :=
    binary64_exact _ 11 5 (by norm_num) (by norm_num) (by norm_num)
  have n2 : IsNumber (1 / 2) := binary64_exact _ 1 1 (by norm_num) (by norm_num) (by norm_num)
  have n3 : IsNumber (1 / 4) := binary64_exact _ 1 2 (by norm_num) (by norm_num) (by norm_num)
  have n4 : IsNumber (3 / 4) := binary64_exact _ 3 2 (by norm_num) (by norm_num) (by norm_num)
  have n5 : IsNumber (3 / 8) := binary64_exact _ 3 3 (by norm_num) (by norm_num) (by norm_num)
  refine ⟨?_, ?_, ?_, ?_, ?_⟩
  · intro r hr
    simp only [List.mem_cons, List.mem_singleton, List.not_mem_nil, or_false] at hr
    rcases hr with rfl | rfl | rfl | rfl | rfl | rfl | rfl | rfl <;>
      first
        | exact ⟨n0, by norm_num, by norm_num⟩
        | exact ⟨n1, by norm_num, by norm_num⟩
        | exact ⟨n2, by norm_num, by norm_num⟩
        | exact ⟨n3, by norm_num, by norm_num⟩
        | exact ⟨n4, by norm_num, by norm_num⟩
  · intro r hr
    simp only [List.mem_cons, List.mem_singleton, List.not_mem_nil, or_false] at hr
    rcases hr with rfl | rfl | rfl | rfl | rfl | rfl <;>
      first
        | exact ⟨n0, by norm_num, by norm_num⟩
        | exact ⟨n5, by norm_num, by norm_num⟩
        | exact ⟨n2, by norm_num, by norm_num⟩
        | exact ⟨n4, by norm_num, by norm_num⟩
  · intro r hr
    simp only [List.mem_cons, List.mem_singleton, List.not_mem_nil, or_false] at hr
    rcases hr with rfl | rfl | rfl | rfl | rfl <;>
      first
        | exact ⟨n0, by norm_num, by norm_num⟩
        | exact ⟨n1, by norm_num, by norm_num⟩
        | exact ⟨n2, by norm_num, by norm_num⟩
        | exact ⟨n3, by norm_num, by norm_num⟩
        | exact ⟨n4, by norm_num, by norm_num⟩
  · intro r hr
    have h0 : r = 0 := by simpa using hr
    subst h0
    exact ⟨n0, by norm_num, by norm_num⟩
  · intro r hr
    have h0 : r = 0 := by
      rcases List.mem_append.1 hr with h | h
      · exact List.eq_of_mem_replicate h
      · simpa using h
    subst h0
    exact ⟨n0, by norm_num, by norm_num⟩

theorem Food.spawnLoop_some (tilesX tilesY : Int) (segments : List Coord) :
    ∀ (rnd : List ℚ) (position : Coord) (rnd1 : List ℚ),
      Food.spawnLoop tilesX tilesY segments rnd = some (position, rnd1) →
      ∃ r1 r2, r1 ∈ rnd ∧ r2 ∈ rnd ∧ position = Food.candidate tilesX tilesY (r1, r2) ∧
        position ∉ segments
  | [], position, rnd1, h => by simp [Food.spawnLoop] at h
  | [_], position, rnd1, h => by simp [Food.spawnLoop] at h
  | r1 :: r2 :: rest, position, rnd1, h => by
    simp only [Food.spawnLoop] at h
    split at h
    · obtain ⟨a, b, ha, hb, hp, hn⟩ :=
        Food.spawnLoop_some tilesX tilesY segments rest position rnd1 h
      exact ⟨a, b, by simp [ha], by simp [hb], hp, hn⟩
    · rename_i hoff
      have hpos : _ = position := (Prod.mk.inj (Option.some.inj h)).1
      refine ⟨r1, r2, by simp, by simp, hpos.symm, ?_⟩
      rw [← hpos, ← Food.onSnake_iff]
      exact hoff

theorem Food.spawnLoop_rounds (tilesX tilesY : Int) (segments : List Coord)
    (rejected : List (ℚ × ℚ)) (p : ℚ × ℚ) (rest : List ℚ)
    (hrej : ∀ q ∈ rejected, Food.candidate tilesX tilesY q ∈ segments)
    (hacc : Food.candidate tilesX tilesY p ∉ segments) :
    Food.spawnLoop tilesX tilesY segments (roundDraws rejected ++ p.1 :: p.2 :: rest) =
      some (Food.candidate tilesX tilesY p, rest) := by
  induction rejected with
  | nil =>
    have hoff : ¬ Food.onSnake segments
        ⟨⌊binary64 (p.1 * (tilesX : ℚ))⌋, ⌊binary64 (p.2 * (tilesY : ℚ))⌋⟩ = true :=
      fun hc => hacc ((Food.onSnake_iff _ _).1 hc)
    simp only [roundDraws, List.nil_append, Food.spawnLoop, hoff]
    rfl
  | cons q qs ih =>
    have hon : Food.onSnake segments
        ⟨⌊binary64 (q.1 * (tilesX : ℚ))⌋, ⌊binary64 (q.2 * (tilesY : ℚ))⌋⟩ = true :=
      (Food.onSnake_iff _ _).2 (hrej q (by simp))
    simp only [roundDraws, List.cons_append, Food.spawnLoop, hon, if_true]
    exact ih (fun r hr => hrej r (by simp [hr]))

theorem Food.spawn_some (f f1 : Food) (segments : List Coord) (rnd rnd1 : List ℚ)
    (h : f.spawn segments rnd = some (f1, rnd1)) :
    f1.tilesX = f.tilesX ∧ f1.tilesY = f.tilesY ∧
    f1.canvasWidth = f.canvasWidth ∧ f1.canvasHeight = f.canvasHeight ∧
    f1.position ∉ segments ∧
    ∃ r1 r2, r1 ∈ rnd ∧ r2 ∈ rnd ∧ f1.position = Food.candidate f.tilesX f.tilesY (r1, r2) := by
  unfold Food.spawn at h
  split at h
  · exact absurd h (by simp)
  · rename_i position rnd2 hloop
    obtain ⟨r1, r2, h1, h2, hp, hn⟩ :=
      Food.spawnLoop_some f.tilesX f.tilesY segments rnd position rnd2 hloop
    split at h
    · exact absurd h (by simp)
    · have hf : _ = f1 := (Prod.mk.inj (Option.some.inj h)).1
      subst hf
      exact ⟨rfl, rfl, rfl, rfl, hn, r1, r2, h1, h2, hp⟩

theorem Food.spawn_rounds (f : Food) (segments : List Coord)
    (rejected : List (ℚ × ℚ)) (p : ℚ × ℚ) (c : ℚ) (rest : List ℚ)
    (hrej : ∀ q ∈ rejected, Food.candidate f.tilesX f.tilesY q ∈ segments)
    (hacc : Food.candidate f.tilesX f.tilesY p ∉ segments) :
    f.spawn segments (roundDraws rejected ++ p.1 :: p.2 :: c :: rest) =
      some ({ f with position := Food.candidate f.tilesX f.tilesY p,
                     color := if c > 1 / 2 then COLOR_FOOD else COLOR_FOOD_ALT }, rest) := by
  unfold Food.spawn
  rw [Food.spawnLoop_rounds f.tilesX f.tilesY segments rejected p (c :: rest) hrej hacc]

theorem Food.spawn_inGrid (f f1 : Food) (segments : List Coord) (rnd rnd1 : List ℚ)
    (hx : 1 ≤ f.tilesX) (hy : 1 ≤ f.tilesY) (hr : Draws rnd)
    (h : f.spawn segments rnd = some (f1, rnd1)) :
    0 ≤ f1.position.x ∧ f1.position.x < f.tilesX ∧
    0 ≤ f1.position.y ∧ f1.position.y < f.tilesY := by
  obtain ⟨_, _, _, _, _, r1, r2, h1, h2, hp⟩ := Food.spawn_some f f1 segments rnd rnd1 h
  rw [hp]
  have b1 := floor_draw_bounds r1 f.tilesX (hr r1 h1).1 (hr r1 h1).2.1 (hr r1 h1).2.2 hx
  have b2 := floor_draw_bounds r2 f.tilesY (hr r2 h2).1 (hr r2 h2).2.1 (hr r2 h2).2.2 hy
  exact ⟨b1.1, b1.2, b2.1, b2.2⟩

/-- Claim C6. For every list of segments and every `Food` whose grid has `tilesX >= 1`
and `tilesY >= 1`, whenever `spawn(segments)` returns on draws that are Numbers in
`[0, 1)`, the food position lies inside `[0, tilesX) x [0, tilesY)` and is the
coordinate of no element of `segments`. The position is the floor of the binary64
product of draw and tile count. -/
theorem Food.spawn_spec (f f1 : Food) (segments : List Coord) (rnd rnd1 : List ℚ)
    (hx : 1 ≤ f.tilesX) (hy : 1 ≤ f.tilesY) (hr : ∀ r ∈ rnd, IsNumber r ∧ 0 ≤ r ∧ r < 1)
    (h : f.spawn segments rnd = some (f1, rnd1)) :
    (0 ≤ f1.position.x ∧ f1.position.x < f.tilesX ∧
     0 ≤ f1.position.y ∧ f1.position.y < f.tilesY) ∧
    ∀ segment ∈ segments,
      ¬ (segment.x = f1.position.x ∧ segment.y = f1.position.y) := by
  refine ⟨Food.spawn_inGrid f f1 segments rnd rnd1 hx hy hr h, ?_⟩
  intro segment hm hc
  have heq : segment = f1.position := (Coord.eq_iff _ _).2 hc
  exact (Food.spawn_some f f1 segments rnd rnd1 h).2.2.2.2.1 (heq ▸ hm)

/-- Witness of C6: the first candidate (10,10) is on the initial snake and is redrawn,
the second candidate (0,5) is kept. -/
theorem Food.spawn_spec_witness :
    (⟨600, 400, 30, 20, ⟨5, 5⟩, COLOR_FOOD⟩ : Food).spawn Snake.new.segments
        [11 / 32, 1 / 2, 0, 1 / 4, 3 / 4] =
      some (⟨600, 400, 30, 20, ⟨0, 5⟩, COLOR_FOOD⟩, []) ∧
    ((0 : Int) ≤ 0 ∧ (0 : Int) < 30 ∧ (0 : Int) ≤ 5 ∧ (5 : Int) < 20) ∧
    ¬ ((10 : Int) = 0 ∧ (10 : Int) = 5) := by
  have hs : (⟨600, 400, 30, 20, ⟨5, 5⟩, COLOR_FOOD⟩ : Food).spawn Snake.new.segments
        [11 / 32, 1 / 2, 0, 1 / 4, 3 / 4] =
      some (⟨600, 400, 30, 20, ⟨0, 5⟩, COLOR_FOOD⟩, []) := by
    have h := Food.spawn_rounds ⟨600, 400, 30, 20, ⟨5, 5⟩, COLOR_FOOD⟩ Snake.new.segments
      [(11 / 32, 1 / 2)] (0, 1 / 4) (3 / 4) []
      (by
        intro q hq
        have hq1 : q = (11 / 32, 1 / 2) := by simpa using hq
        subst hq1
        rw [Food.candidate_on_snake]
        simp [Snake.new])
      (by
        rw [Food.candidate_left_edge]
        simp [Snake.new])
    rw [Food.candidate_left_edge] at h
    rw [show ([11 / 32, 1 / 2, 0, 1 / 4, 3 / 4] : List ℚ) =
      roundDraws [(11 / 32, 1 / 2)] ++ ((0 : ℚ), (1 / 4 : ℚ)).1 :: ((0 : ℚ), (1 / 4 : ℚ)).2 ::
        3 / 4 :: [] from rfl, h]
    norm_num
  obtain ⟨hgrid, hoff⟩ :=
    Food.spawn_spec _ _ _ _ _ (by decide) (by decide) Draws.examples.2.2.1 hs
  exact ⟨hs, hgrid, hoff ⟨10, 10⟩ (by simp [Snake.new])⟩

/-! ## Game: the tick -/

theorem Draws.append_right (pre rnd : List ℚ) (h : Draws (pre ++ rnd)) : Draws rnd :=
  fun r hr => h r (List.mem_append_right pre hr)

theorem Game.createExplosionLoop_some (px py : Int) (color : String) :
    ∀ (n : Nat) (particles : List Particle) (rnd : List ℚ) (ps : List Particle)
      (rnd1 : List ℚ),
      Game.createExplosionLoop px py color n particles rnd = some (ps, rnd1) →
      ∃ pre, rnd = pre ++ rnd1 ∧ pre.length = 3 * n
  | 0, particles, rnd, ps, rnd1, h => by
    simp only [Game.createExplosionLoop, Option.some.injEq, Prod.mk.injEq] at h
    exact ⟨[], by simp [h.2], rfl⟩
  | n + 1, particles, rnd, ps, rnd1, h => by
    match rnd, h with
    | [], h => simp [Game.createExplosionLoop, Particle.new] at h
    | [_], h => simp [Game.createExplosionLoop, Particle.new] at h
    | [_, _], h => simp [Game.createExplosionLoop, Particle.new] at h
    | r1 :: r2 :: r3 :: rest, h =>
      simp only [Game.createExplosionLoop, Particle.new] at h
      obtain ⟨pre, hpre, hlen⟩ := Game.createExplosionLoop_some px py color n _ rest ps rnd1 h
      exact ⟨r1 :: r2 :: r3 :: pre, by simp [hpre], by simp [hlen]; omega⟩

theorem Game.createExplosionLoop_isSome (px py : Int) (color : String) :
    ∀ (n : Nat) (particles : List Particle) (pre rnd1 : List ℚ), pre.length = 3 * n →
      ∃ ps, Game.createExplosionLoop px py color n particles (pre ++ rnd1) = some (ps, rnd1)
  | 0, particles, pre, rnd1, h => by
    have hnil : pre = [] := List.length_eq_zero.1 (by omega)
    subst hnil
    exact ⟨particles, rfl⟩
  | n + 1, particles, pre, rnd1, h => by
    match pre, h with
    | [], h => simp at h
    | [_], h => simp at h; omega
    | [_, _], h => simp at h; omega
    | r1 :: r2 :: r3 :: rest, h =>
      have hlen : rest.length = 3 * n := by simp at h; omega
      obtain ⟨ps, hps⟩ := Game.createExplosionLoop_isSome px py color n
        (particles ++ [⟨px, py, color, r1, r2 * 5 + 2, 1, r3 * (3 / 100) + 2 / 100, 0⟩])
        rest rnd1 hlen
      exact ⟨ps, by simpa [Game.createExplosionLoop, Particle.new] using hps⟩

theorem Game.createExplosion_some (g g2 : Game) (x y : Int) (color : String)
    (rnd rnd1 : List ℚ) (h : g.createExplosion x y color rnd = some (g2, rnd1)) :
    g2 = { g with particles := g2.particles } ∧ ∃ pre, rnd = pre ++ rnd1 ∧ pre.length = 60 := by
  unfold Game.createExplosion at h
  simp only at h
  split at h
  · exact absurd h (by simp)
  · rename_i ps rnd2 hloop
    obtain ⟨hg, hr⟩ := Prod.mk.inj (Option.some.inj h)
    subst hg hr
    exact ⟨rfl, Game.createExplosionLoop_some _ _ _ 20 _ _ _ _ hloop⟩

theorem Game.createExplosion_isSome (g : Game) (x y : Int) (color : String)
    (pre rnd1 : List ℚ) (h : pre.length = 60) :
    ∃ ps, g.createExplosion x y color (pre ++ rnd1) = some ({ g with particles := ps }, rnd1) := by
  obtain ⟨ps, hps⟩ := Game.createExplosionLoop_isSome (x * GRID_SIZE + GRID_SIZE / 2)
    (y * GRID_SIZE + GRID_SIZE / 2) color 20 g.particles pre rnd1 (by omega)
  exact ⟨ps, by simp only [Game.createExplosion, hps]⟩

theorem Game.eatFood_miss (g : Game) (s : Snake) (head : Coord) (body : List Coord) (f : Food)
    (rnd : List ℚ) (hseg : s.segments = head :: body) (hf : g.food = some f)
    (hne : head ≠ f.position) :
    g.eatFood s rnd = some ({ g with snake := some s }, rnd) := by
  unfold Game.eatFood
  rw [hseg, hf]
  simp only
  rw [if_neg]
  rintro ⟨hx, hy⟩
  exact hne ((Coord.eq_iff _ _).2 ⟨hx, hy⟩)

theorem Game.eatFood_hit (g : Game) (s : Snake) (head : Coord) (body : List Coord) (f : Food)
    (rnd : List ℚ) (hseg : s.segments = head :: body) (hf : g.food = some f)
    (heq : head = f.position) :
    g.eatFood s rnd =
      match ({ g with score := g.score + 10 } : Game).createExplosion
          f.position.x f.position.y f.color rnd with
      | none => none
      | some (g2, rnd1) =>
        match f.spawn s.segments rnd1 with
        | none => none
        | some (f1, rnd2) => some ({ g2 with snake := some s.grow, food := some f1 }, rnd2) := by
  unfold Game.eatFood
  rw [hseg, hf]
  simp only
  rw [if_pos ⟨by rw [heq], by rw [heq]⟩]
  simp only [Snake.grow, hseg]

theorem Game.tick_eq (g : Game) (s0 s : Snake) (head : Coord) (body : List Coord)
    (rnd : List ℚ) (hs0 : g.snake = some s0) (hu : s0.update = some s)
    (hseg : s.segments = head :: body) :
    g.tick rnd =
      (if Collides ((g.canvasWidth : Int) / 20) ((g.canvasHeight : Int) / 20) head body
        then g.gameOver else g).eatFood s rnd := by
  unfold Game.tick
  rw [hs0]
  simp only
  rw [hu]
  simp only
  rw [Snake.checkCollision_cons s head body _ _ hseg]
  simp only [Collides, decide_eq_true_eq]

theorem Game.gameOver_eq (g : Game) :
    g.gameOver = { g with state := GameState.GAMEOVER,
                          highScore := if g.score > g.highScore then g.score else g.highScore } := by
  unfold Game.gameOver
  by_cases h : g.score > g.highScore
  · simp only [h, if_true]
  · simp only [h, if_false]

theorem Game.gameOver_fields (g : Game) :
    g.gameOver.canvasWidth = g.canvasWidth ∧ g.gameOver.canvasHeight = g.canvasHeight ∧
    g.gameOver.state = GameState.GAMEOVER ∧ g.gameOver.score = g.score ∧
    g.gameOver.food = g.food := by
  rw [Game.gameOver_eq]
  exact ⟨rfl, rfl, rfl, rfl, rfl⟩

theorem Game.eatFood_some (g g1 : Game) (s : Snake) (head : Coord) (body : List Coord)
    (f : Food) (rnd rnd1 : List ℚ) (hseg : s.segments = head :: body) (hf : g.food = some f)
    (h : g.eatFood s rnd = some (g1, rnd1)) :
    g1.canvasWidth = g.canvasWidth ∧ g1.canvasHeight = g.canvasHeight ∧
    g1.state = g.state ∧ g1.highScore = g.highScore ∧
    ((head = f.position ∧ g1.snake = some s.grow ∧ g1.score = g.score + 10 ∧
        ∃ f1 pre rnd2, rnd = pre ++ rnd2 ∧ pre.length = 60 ∧
          f.spawn s.segments rnd2 = some (f1, rnd1) ∧ g1.food = some f1) ∨
     (head ≠ f.position ∧ g1.snake = some s ∧ g1.food = some f ∧ g1.score = g.score ∧
        g1.particles = g.particles ∧ rnd1 = rnd)) := by
  by_cases heq : head = f.position
  · rw [Game.eatFood_hit g s head body f rnd hseg hf heq] at h
    split at h
    · exact absurd h (by simp)
    · rename_i g2 rnd2 hex
      obtain ⟨hg2, pre, hpre, hlen⟩ := Game.createExplosion_some _ _ _ _ _ _ _ hex
      split at h
      · exact absurd h (by simp)
      · rename_i f1 rnd3 hsp
        obtain ⟨hg, hr⟩ := Prod.mk.inj (Option.some.inj h)
        subst hg hr
        rw [hg2]
        exact ⟨rfl, rfl, rfl, rfl, Or.inl ⟨heq, rfl, rfl, f1, pre, rnd2, hpre, hlen, hsp, rfl⟩⟩
  · rw [Game.eatFood_miss g s head body f rnd hseg hf heq] at h
    obtain ⟨hg, hr⟩ := Prod.mk.inj (Option.some.inj h)
    subst hg hr
    exact ⟨rfl, rfl, rfl, rfl, Or.inr ⟨heq, rfl, hf, rfl, rfl, rfl⟩⟩

theorem Game.tick_some (g g1 : Game) (s0 s : Snake) (head : Coord) (body : List Coord)
    (f : Food) (rnd rnd1 : List ℚ) (hs0 : g.snake = some s0) (hu : s0.update = some s)
    (hseg : s.segments = head :: body) (hf : g.food = some f)
    (h : g.tick rnd = some (g1, rnd1)) :
    g1.canvasWidth = g.canvasWidth ∧ g1.canvasHeight = g.canvasHeight ∧
    g1.state =
      (if Collides ((g.canvasWidth : Int) / 20) ((g.canvasHeight : Int) / 20) head body
        then GameState.GAMEOVER else g.state) ∧
    ((head = f.position ∧ g1.snake = some s.grow ∧ g1.score = g.score + 10 ∧
        ∃ f1 pre rnd2, rnd = pre ++ rnd2 ∧ pre.length = 60 ∧
          f.spawn s.segments rnd2 = some (f1, rnd1) ∧ g1.food = some f1) ∨
     (head ≠ f.position ∧ g1.snake = some s ∧ g1.food = some f ∧ g1.score = g.score ∧
        rnd1 = rnd)) := by
  rw [Game.tick_eq g s0 s head body rnd hs0 hu hseg] at h
  by_cases hC : Collides ((g.canvasWidth : Int) / 20) ((g.canvasHeight : Int) / 20) head body
  · rw [if_pos hC] at h
    obtain ⟨k1, k2, k3, k4, k5⟩ := Game.gameOver_fields g
    obtain ⟨h1, h2, h3, _, h5⟩ :=
      Game.eatFood_some g.gameOver g1 s head body f rnd rnd1 hseg (k5 ▸ hf) h
    rw [k4] at h5
    refine ⟨h1.trans k1, h2.trans k2, by rw [h3, if_pos hC, k3], ?_⟩
    rcases h5 with ⟨a, b, c, d⟩ | ⟨a, b, c, d, _, e⟩
    · exact Or.inl ⟨a, b, c, d⟩
    · exact Or.inr ⟨a, b, c, d, e⟩
  · rw [if_neg hC] at h
    obtain ⟨h1, h2, h3, _, h5⟩ := Game.eatFood_some _ g1 s head body f rnd rnd1 hseg hf h
    refine ⟨h1, h2, by rw [h3, if_neg hC], ?_⟩
    rcases h5 with ⟨a, b, c, d⟩ | ⟨a, b, c, d, _, e⟩
    · exact Or.inl ⟨a, b, c, d⟩
    · exact Or.inr ⟨a, b, c, d, e⟩

/-! ## Game: the invariant of the reachable states -/

theorem Food.spawnLoop_draws (tilesX tilesY : Int) (segments : List Coord) :
    ∀ (rnd : List ℚ) (position : Coord) (rnd1 : List ℚ), Draws rnd →
      Food.spawnLoop tilesX tilesY segments rnd = some (position, rnd1) → Draws rnd1
  | [], position, rnd1, _, h => by simp [Food.spawnLoop] at h
  | [_], position, rnd1, _, h => by simp [Food.spawnLoop] at h
  | r1 :: r2 :: rest, position, rnd1, hd, h => by
    have hrest : Draws rest := Draws.append_right [r1, r2] rest hd
    simp only [Food.spawnLoop] at h
    split at h
    · exact Food.spawnLoop_draws tilesX tilesY segments rest position rnd1 hrest h
    · have hr : rest = rnd1 := (Prod.mk.inj (Option.some.inj h)).2
      exact hr ▸ hrest

theorem Food.spawn_draws (f f1 : Food) (segments : List Coord) (rnd rnd1 : List ℚ)
    (hd : Draws rnd) (h : f.spawn segments rnd = some (f1, rnd1)) : Draws rnd1 := by
  unfold Food.spawn at h
  split at h
  · exact absurd h (by simp)
  · rename_i position rnd2 hloop
    have h2 := Food.spawnLoop_draws _ _ _ _ _ _ hd hloop
    split at h
    · exact absurd h (by simp)
    · rename_i c rnd3
      have hr : rnd3 = rnd1 := (Prod.mk.inj (Option.some.inj h)).2
      exact hr ▸ Draws.append_right [c] rnd3 h2

theorem Food.new_some (canvasWidth canvasHeight : Int) (rnd rnd1 : List ℚ) (f : Food)
    (h : Food.new canvasWidth canvasHeight rnd = some (f, rnd1)) :
    f.tilesX = canvasWidth / 20 ∧ f.tilesY = canvasHeight / 20 ∧ (Draws rnd → Draws rnd1) := by
  unfold Food.new at h
  simp only at h
  split at h
  · exact absurd h (by simp)
  · rename_i f0 rnd2 hsp
    obtain ⟨hf, hr⟩ := Prod.mk.inj (Option.some.inj h)
    subst hf hr
    obtain ⟨hx, hy, _⟩ := Food.spawn_some _ _ _ _ _ hsp
    exact ⟨hx, hy, fun hd => Food.spawn_draws _ _ _ _ _ hd hsp⟩

theorem Game.start_some (g0 g : Game) (rnd rnd1 : List ℚ) (h : g0.start rnd = some (g, rnd1)) :
    ∃ food0 rnd0 f, Food.new g0.canvasWidth g0.canvasHeight rnd = some (food0, rnd0) ∧
      food0.spawn Snake.new.segments rnd0 = some (f, rnd1) ∧
      g = { g0 with snake := some Snake.new, food := some f, particles := [], score := 0,
                    accumulatedTime := 0, state := GameState.PLAYING } := by
  unfold Game.start Game.initEntities at h
  simp only at h
  split at h
  · exact absurd h (by simp)
  · rename_i g1 rnd2 hinit
    split at hinit
    · exact absurd hinit (by simp)
    · rename_i food0 rnd0 hnew
      split at hinit
      · exact absurd hinit (by simp)
      · rename_i f rnd3 hsp
        obtain ⟨hg1, hr1⟩ := Prod.mk.inj (Option.some.inj hinit)
        obtain ⟨hg, hr⟩ := Prod.mk.inj (Option.some.inj h)
        subst hg1 hr1 hg hr
        exact ⟨food0, rnd0, f, hnew, hsp, rfl⟩

theorem Game.Inv.of_fields (b : Bool) (g g1 : Game) (h1 : g1.snake = g.snake)
    (h2 : g1.food = g.food) (h3 : g1.state = g.state) (h4 : g1.canvasWidth = g.canvasWidth)
    (h5 : g1.canvasHeight = g.canvasHeight) (h : Game.Inv b g) : Game.Inv b g1 := by
  obtain ⟨s, f, hs, hf, a, c, d, e, k⟩ := h
  exact ⟨s, f, h1 ▸ hs, h2 ▸ hf, a, h3 ▸ c, d, e, h4 ▸ h5 ▸ k⟩

theorem Game.Inv.start (b : Bool) (g0 g : Game) (rnd rnd1 : List ℚ) (hd : Draws rnd)
    (h : g0.start rnd = some (g, rnd1)) : Game.Inv b g := by
  obtain ⟨food0, rnd0, f, hnew, hsp, hg⟩ := Game.start_some g0 g rnd rnd1 h
  obtain ⟨hx, hy, hd0⟩ := Food.new_some _ _ _ _ _ hnew
  obtain ⟨tx, ty, _, _, hn, _⟩ := Food.spawn_some _ _ _ _ _ hsp
  subst hg
  refine ⟨Snake.new, f, rfl, rfl, by simp [Snake.new], fun _ => by decide, hn, ?_, ?_⟩
  · intro h1 h2
    rw [tx] at h1 ⊢
    rw [ty] at h2 ⊢
    exact Food.spawn_inGrid _ _ _ _ _ h1 h2 (hd0 hd) hsp
  · intro _
    exact ⟨by rw [tx, hx], by rw [ty, hy]⟩

theorem Game.Inv.snakeSetDirection (b : Bool) (g g1 : Game) (x y : Int)
    (hi : Game.Inv b g) (h : g.snakeSetDirection x y = some g1) : Game.Inv b g1 := by
  obtain ⟨s, f, hs, hf, a, c, d, e, k⟩ := hi
  unfold Game.snakeSetDirection at h
  rw [hs] at h
  have hg : _ = g1 := Option.some.inj h
  subst hg
  exact ⟨s.setDirection x y, f, rfl, hf, by rw [Snake.setDirection_segments]; exact a,
    by rw [Snake.setDirection_segments]; exact c,
    by rw [Snake.setDirection_segments]; exact d, e, k⟩

theorem Game.Inv.input (b : Bool) (g g1 : Game) (key : String)
    (hi : Game.Inv b g) (h : g.input key = some g1) : Game.Inv b g1 := by
  unfold Game.input at h
  split_ifs at h
  all_goals first
    | exact (Option.some.inj h) ▸ hi
    | exact Game.Inv.snakeSetDirection b g g1 _ _ hi h

theorem Game.Inv.handleSwipe (b : Bool) (g g1 : Game) (endX endY : ℚ)
    (hi : Game.Inv b g) (h : g.handleSwipe endX endY = some g1) : Game.Inv b g1 := by
  unfold Game.handleSwipe at h
  simp only at h
  split_ifs at h
  all_goals first
    | exact (Option.some.inj h) ▸ hi
    | exact Game.Inv.snakeSetDirection b g g1 _ _ hi h

theorem Game.Inv.resize (g : Game) (clientWidth clientHeight : Nat)
    (hi : Game.Inv true g) : Game.Inv true (g.resize clientWidth clientHeight) := by
  obtain ⟨s, f, hs, hf, a, c, d, e, _⟩ := hi
  exact ⟨s, f, hs, hf, a, c, d, e, fun hb => absurd hb (by decide)⟩

theorem Snake.update_body (s0 s : Snake) (h : s0.update = some s) :
    ∃ head body, s.segments = head :: body ∧ body.Sublist s0.segments ∧
      s.growPending = s0.growPending - 1 := by
  obtain ⟨first, rest, hseg0, hseg, _, _, hg⟩ := Snake.update_some s0 s h
  refine ⟨_, _, hseg, ?_, hg⟩
  rw [hseg0]
  split
  · exact List.dropLast_sublist _
  · exact List.Sublist.refl _

theorem Game.Inv.tick (b : Bool) (g g1 : Game) (rnd rnd1 : List ℚ) (hi : Game.Inv b g)
    (hd : Draws rnd) (h : g.tick rnd = some (g1, rnd1)) : Game.Inv b g1 := by
  obtain ⟨s0, f, hs0, hf, hne, hnd, hpos, hgrid, htiles⟩ := hi
  obtain ⟨s, hu⟩ := Snake.update_isSome s0 hne
  obtain ⟨head, body, hseg, hsub, _⟩ := Snake.update_body s0 s hu
  obtain ⟨c1, c2, c3, c4⟩ := Game.tick_some g g1 s0 s head body f rnd rnd1 hs0 hu hseg hf h
  have hplay : g1.state = GameState.PLAYING → s.segments.Nodup := by
    intro hp
    rw [c3] at hp
    split at hp
    · exact absurd hp (by decide)
    · rename_i hC
      have hbody : head ∉ body := fun hm => hC (Or.inr hm)
      rw [hseg]
      exact List.nodup_cons.2 ⟨hbody, (hnd hp).sublist hsub⟩
  rcases c4 with ⟨_, hsn, _, f1, pre, rnd2, hpre, _, hsp, hfood⟩ | ⟨hmiss, hsn, hfood, _, _⟩
  · obtain ⟨tx, ty, _, _, hn, _⟩ := Food.spawn_some _ _ _ _ _ hsp
    have hd2 : Draws rnd2 := Draws.append_right pre rnd2 (hpre ▸ hd)
    refine ⟨s.grow, f1, hsn, hfood, by simp [Snake.grow, hseg], hplay, hn, ?_, ?_⟩
    · intro h1 h2
      rw [tx] at h1 ⊢
      rw [ty] at h2 ⊢
      exact Food.spawn_inGrid _ _ _ _ _ h1 h2 hd2 hsp
    · intro hb
      rw [tx, ty, c1, c2]
      exact htiles hb
  · refine ⟨s, f, hsn, hfood, by simp [hseg], hplay, ?_, hgrid, ?_⟩
    · rw [hseg]
      intro hm
      rcases List.mem_cons.1 hm with hh | hb
      · exact hmiss hh.symm
      · exact hpos (hsub.subset hb)
    · intro hb
      rw [c1, c2]
      exact htiles hb

theorem Game.loop_tick (g : Game) (timestamp : ℚ) (rnd : List ℚ)
    (hp : g.state = GameState.PLAYING)
    (ht : g.accumulatedTime + (timestamp - g.lastTime) > GAME_SPEED) :
    g.loop timestamp rnd =
      match Game.tick { g with lastTime := timestamp, accumulatedTime := 0 } rnd with
      | none => none
      | some (g3, rnd1) => some (g3.updateParticles, rnd1) := by
  unfold Game.loop
  simp only [hp, if_true, ht]

theorem Game.loop_tick_some (g g1 : Game) (timestamp : ℚ) (rnd rnd1 : List ℚ)
    (hp : g.state = GameState.PLAYING)
    (ht : g.accumulatedTime + (timestamp - g.lastTime) > GAME_SPEED)
    (h : g.loop timestamp rnd = some (g1, rnd1)) :
    ∃ g3, Game.tick { g with lastTime := timestamp, accumulatedTime := 0 } rnd =
        some (g3, rnd1) ∧ g1 = g3.updateParticles := by
  rw [Game.loop_tick g timestamp rnd hp ht] at h
  split at h
  · exact absurd h (by simp)
  · rename_i g3 rnd2 htick
    obtain ⟨hg, hr⟩ := Prod.mk.inj (Option.some.inj h)
    exact ⟨g3, by rw [htick, hr], hg.symm⟩

theorem Game.loop_tick_of (g g3 : Game) (timestamp : ℚ) (rnd rnd1 : List ℚ)
    (hp : g.state = GameState.PLAYING)
    (ht : g.accumulatedTime + (timestamp - g.lastTime) > GAME_SPEED)
    (h : Game.tick { g with lastTime := timestamp, accumulatedTime := 0 } rnd =
      some (g3, rnd1)) :
    g.loop timestamp rnd = some (g3.updateParticles, rnd1) := by
  rw [Game.loop_tick g timestamp rnd hp ht, h]

theorem Game.loop_idle (g : Game) (timestamp : ℚ) (rnd : List ℚ)
    (h : ¬ (g.state = GameState.PLAYING ∧
      g.accumulatedTime + (timestamp - g.lastTime) > GAME_SPEED)) :
    ∃ acc, g.loop timestamp rnd =
      some (Game.updateParticles { g with lastTime := timestamp, accumulatedTime := acc },
        rnd) := by
  unfold Game.loop
  by_cases hp : g.state = GameState.PLAYING
  · have ht : ¬ g.accumulatedTime + (timestamp - g.lastTime) > GAME_SPEED := fun hc => h ⟨hp, hc⟩
    exact ⟨g.accumulatedTime + (timestamp - g.lastTime), by simp only [hp, if_true, ht, if_false]⟩
  · exact ⟨g.accumulatedTime, by simp only [hp, if_false]⟩

theorem Game.Inv.loop (b : Bool) (g g1 : Game) (timestamp : ℚ) (rnd rnd1 : List ℚ)
    (hi : Game.Inv b g) (hd : Draws rnd) (h : g.loop timestamp rnd = some (g1, rnd1)) :
    Game.Inv b g1 := by
  by_cases hc : g.state = GameState.PLAYING ∧
      g.accumulatedTime + (timestamp - g.lastTime) > GAME_SPEED
  · obtain ⟨g3, htick, hg⟩ := Game.loop_tick_some g g1 timestamp rnd rnd1 hc.1 hc.2 h
    have h3 := Game.Inv.tick b { g with lastTime := timestamp, accumulatedTime := 0 } g3 rnd
      rnd1 (Game.Inv.of_fields b g _ rfl rfl rfl rfl rfl hi) hd htick
    exact hg ▸ Game.Inv.of_fields b g3 _ rfl rfl rfl rfl rfl h3
  · obtain ⟨acc, hacc⟩ := Game.loop_idle g timestamp rnd hc
    rw [hacc] at h
    have hg : _ = g1 := (Prod.mk.inj (Option.some.inj h)).1
    exact hg ▸ Game.Inv.of_fields b g _ rfl rfl rfl rfl rfl hi

theorem Game.reachable_invariant (b : Bool) (g : Game) (h : Game.Reachable b g) : Game.Inv b g := by
  induction h with
  | start g0 g rnd rnd1 hd hs => exact Game.Inv.start b g0 g rnd rnd1 hd hs
  | input g g1 key _ hk ih => exact Game.Inv.input b g g1 key ih hk
  | touchStart g x y _ ih => exact Game.Inv.of_fields b g _ rfl rfl rfl rfl rfl ih
  | handleSwipe g g1 x y _ hk ih => exact Game.Inv.handleSwipe b g g1 x y ih hk
  | loop g g1 t rnd rnd1 _ hd hl ih => exact Game.Inv.loop b g g1 t rnd rnd1 ih hd hl
  | resize g cw ch hb _ ih =>
    subst hb
    exact Game.Inv.resize g cw ch ih

theorem exampleGame_start (width height : Nat) (hw : width % 20 = 0) (hh : height % 20 = 0) :
    (Game.new width height 0).start [0, 0, 0, 0, 0, 0] = some (exampleGame width height, []) := by
  simp [Game.start, Game.initEntities, Game.new, Food.new, Food.spawn, Food.spawnLoop,
    Food.onSnake, Snake.new, exampleGame, exampleFood, GRID_SIZE, binary64_zero, hw, hh]

theorem exampleGame_reachable (b : Bool) (width height : Nat) (hw : width % 20 = 0)
    (hh : height % 20 = 0) : Game.Reachable b (exampleGame width height) :=
  Game.Reachable.start (Game.new width height 0) _ [0, 0, 0, 0, 0, 0] []
    Draws.examples.2.2.2.1 (exampleGame_start width height hw hh)

/-! ## Game: collision, uniqueness of the segments, eating -/

theorem Game.tick_gameOver (g : Game) (s0 s : Snake) (head : Coord) (body : List Coord)
    (f : Food) (rnd : List ℚ) (hs0 : g.snake = some s0) (hu : s0.update = some s)
    (hseg : s.segments = head :: body) (hf : g.food = some f)
    (hC : Collides ((g.canvasWidth : Int) / 20) ((g.canvasHeight : Int) / 20) head body)
    (hmiss : head ≠ f.position) :
    ∃ g1, g.tick rnd = some (g1, rnd) ∧ g1.state = GameState.GAMEOVER ∧
      g1.score = g.score ∧ g1.snake = some s ∧ g1.food = some f := by
  obtain ⟨_, _, k3, k4, k5⟩ := Game.gameOver_fields g
  rw [Game.tick_eq g s0 s head body rnd hs0 hu hseg, if_pos hC,
    Game.eatFood_miss g.gameOver s head body f rnd hseg (k5.trans hf) hmiss]
  exact ⟨_, rfl, k3, k4, rfl, k5.trans hf⟩

/-- Claim C5. In a tick of `Game.loop` from a reachable `PLAYING` state, on a canvas at
least one tile wide and high that is not resized during the session: if
`checkCollision` returns true after the snake's update, the tick returns without
drawing a random number, no food is consumed (score, snake and food are as they were
right after the update) and the state is `GAMEOVER`. -/
theorem Game.loop_collision (g : Game) (timestamp : ℚ) (hr : Game.Reachable false g)
    (hp : g.state = GameState.PLAYING) (hw : 20 ≤ g.canvasWidth) (hh : 20 ≤ g.canvasHeight)
    (ht : g.accumulatedTime + (timestamp - g.lastTime) > GAME_SPEED) :
    ∃ s0 s f, g.snake = some s0 ∧ g.food = some f ∧ s0.update = some s ∧
      (s.checkCollision g.canvasWidth g.canvasHeight = some true →
        ∀ rnd, ∃ g1, g.loop timestamp rnd = some (g1, rnd) ∧
          g1.state = GameState.GAMEOVER ∧ g1.score = g.score ∧
          g1.snake = some s ∧ g1.food = some f) := by
  obtain ⟨s0, f, hs0, hf, hne, _, hpos, hgrid, htiles⟩ := Game.reachable_invariant false g hr
  obtain ⟨s, hu⟩ := Snake.update_isSome s0 hne
  obtain ⟨head, body, hseg, hsub, _⟩ := Snake.update_body s0 s hu
  refine ⟨s0, s, f, hs0, hf, hu, ?_⟩
  intro hcol rnd
  rw [Snake.checkCollision_cons s head body _ _ hseg] at hcol
  have hC : Collides ((g.canvasWidth : Int) / 20) ((g.canvasHeight : Int) / 20) head body :=
    of_decide_eq_true (Option.some.inj hcol)
  obtain ⟨tx, ty⟩ := htiles rfl
  have hin := hgrid (by rw [tx]; omega) (by rw [ty]; omega)
  rw [tx, ty] at hin
  have hmiss : head ≠ f.position := by
    intro heq
    rcases hC with hout | hself
    · exact hout (heq ▸ hin)
    · exact hpos (heq ▸ hsub.subset hself)
  obtain ⟨g3, htick, h1, h2, h3, h4⟩ :=
    Game.tick_gameOver { g with lastTime := timestamp, accumulatedTime := 0 }
      s0 s head body f rnd hs0 hu hseg hf hC hmiss
  exact ⟨g3.updateParticles, Game.loop_tick_of g g3 timestamp rnd rnd hp ht htick,
    h1, h2, h3, h4⟩

/-- Witness of C5: on a canvas of 11 by 11 tiles the first tick after `start()` takes
the head from (10,10) to (11,10), outside the grid. -/
theorem Game.loop_collision_witness :
    Game.Reachable false (exampleGame 220 220) ∧
    ((exampleGame 220 220).loop 101 []).map (fun r => (r.1.state, r.1.score, r.1.food)) =
      some (GameState.GAMEOVER, 0, some (exampleFood 220 220)) := by
  have hr := exampleGame_reachable false 220 220 (by decide) (by decide)
  refine ⟨hr, ?_⟩
  obtain ⟨s0, s, f, hs0, hf, hu, hcol⟩ :=
    Game.loop_collision (exampleGame 220 220) 101 hr rfl (by decide) (by decide)
      (by norm_num [exampleGame, GAME_SPEED])
  have e0 : s0 = Snake.new := (Option.some.inj hs0).symm
  have ef : f = exampleFood 220 220 := (Option.some.inj hf).symm
  subst e0 ef
  have hu1 : Snake.new.update = some ⟨[⟨11, 10⟩, ⟨10, 10⟩, ⟨9, 10⟩], ⟨1, 0⟩, ⟨1, 0⟩, 0⟩ := by
    decide
  have es : s = ⟨[⟨11, 10⟩, ⟨10, 10⟩, ⟨9, 10⟩], ⟨1, 0⟩, ⟨1, 0⟩, 0⟩ :=
    Option.some.inj (hu.symm.trans hu1)
  subst es
  obtain ⟨g1, hg1, h1, h2, _, h4⟩ := hcol (by decide) []
  rw [hg1]
  simp only [Option.map_some', h1, h2, h4]
  rfl

/-- Claim C7. In every reachable state in which the game state is `PLAYING`, the
snake's segments are pairwise distinct: no two indices of the body hold the same
coordinate. This holds with and without resize events. -/
theorem Game.segments_distinct (b : Bool) (g : Game) (hr : Game.Reachable b g)
    (hp : g.state = GameState.PLAYING) :
    ∃ s, g.snake = some s ∧
      ∀ (i j : Nat) (hi : i < s.segments.length) (hj : j < s.segments.length),
        i ≠ j → s.segments[i] ≠ s.segments[j] := by
  obtain ⟨s, f, hs, _, _, hnd, _⟩ := Game.reachable_invariant b g hr
  refine ⟨s, hs, ?_⟩
  intro i j hi hj hij heq
  exact hij (((hnd hp).getElem_inj_iff).1 heq)

/-- Witness of C7: the state after `start()` and one tick on a canvas of 30 by 20
tiles. -/
theorem Game.segments_distinct_witness :
    Game.Reachable true
      { exampleGame 600 400 with
        lastTime := 101,
        snake := some ⟨[⟨11, 10⟩, ⟨10, 10⟩, ⟨9, 10⟩], ⟨1, 0⟩, ⟨1, 0⟩, 0⟩ } ∧
    (⟨11, 10⟩ : Coord) ≠ ⟨9, 10⟩ := by
  have hr : Game.Reachable true
      { exampleGame 600 400 with
        lastTime := 101,
        snake := some ⟨[⟨11, 10⟩, ⟨10, 10⟩, ⟨9, 10⟩], ⟨1, 0⟩, ⟨1, 0⟩, 0⟩ } :=
    Game.Reachable.loop (exampleGame 600 400) _ 101 [] []
      (exampleGame_reachable true 600 400 (by decide) (by decide))
      (fun r hr => absurd hr (List.not_mem_nil r))
      (by
        rw [Game.loop_tick _ _ _ rfl (by norm_num [exampleGame, GAME_SPEED])]
        simp [Game.tick, Game.eatFood, Game.gameOver, Game.updateParticles, Snake.update,
          Snake.checkCollision, Snake.new, exampleGame, exampleFood, GRID_SIZE])
  refine ⟨hr, ?_⟩
  obtain ⟨s, hs, hd⟩ := Game.segments_distinct true _ hr rfl
  have es : s = ⟨[⟨11, 10⟩, ⟨10, 10⟩, ⟨9, 10⟩], ⟨1, 0⟩, ⟨1, 0⟩, 0⟩ := (Option.some.inj hs).symm
  subst es
  exact hd 0 2 (by decide) (by decide) (by decide)

/-- Claim C8. In a tick of `Game.loop` from a `PLAYING` state, with `s` the snake
after its update and `head` its new head: if `head` is the food position, every tick
that returns has raised the score by exactly 10 and `growPending` by exactly 1 over its
value after the update and has left the body as the update made it, and the tick does
return whenever the 60 draws of the particles are followed by draws on which
`Food.spawn` returns; if `head` is not the food position, the tick returns without a
draw and leaves score, snake and food as they were after the update. -/
theorem Game.loop_eat (g : Game) (timestamp : ℚ) (s0 s : Snake) (f : Food) (head : Coord)
    (body : List Coord) (hp : g.state = GameState.PLAYING)
    (ht : g.accumulatedTime + (timestamp - g.lastTime) > GAME_SPEED)
    (hs0 : g.snake = some s0) (hf : g.food = some f) (hu : s0.update = some s)
    (hseg : s.segments = head :: body) :
    (head = f.position →
      (∀ rnd g1 rnd1, g.loop timestamp rnd = some (g1, rnd1) →
        g1.score = g.score + 10 ∧
        ∃ s1, g1.snake = some s1 ∧ s1.growPending = s.growPending + 1 ∧
          s1.segments = s.segments) ∧
      (∀ pre rnd2 f1 rnd1, pre.length = 60 → f.spawn s.segments rnd2 = some (f1, rnd1) →
        ∃ g1, g.loop timestamp (pre ++ rnd2) = some (g1, rnd1) ∧ g1.food = some f1)) ∧
    (head ≠ f.position →
      ∀ rnd, ∃ g1, g.loop timestamp rnd = some (g1, rnd) ∧
        g1.score = g.score ∧ g1.snake = some s ∧ g1.food = some f) := by
  refine ⟨fun heq => ⟨?_, ?_⟩, fun hne rnd => ?_⟩
  · intro rnd g1 rnd1 h
    obtain ⟨g3, htick, hg⟩ := Game.loop_tick_some g g1 timestamp rnd rnd1 hp ht h
    obtain ⟨_, _, _, hcase⟩ :=
      Game.tick_some { g with lastTime := timestamp, accumulatedTime := 0 } g3 s0 s head body
        f rnd rnd1 hs0 hu hseg hf htick
    subst hg
    rcases hcase with ⟨_, hsn, hsc, _⟩ | ⟨hne, _⟩
    · exact ⟨hsc, s.grow, hsn, rfl, rfl⟩
    · exact absurd heq hne
  · intro pre rnd2 f1 rnd1 hlen hsp
    have hex : ∀ gm : Game, gm.food = some f →
        ∃ g3, gm.eatFood s (pre ++ rnd2) = some (g3, rnd1) ∧ g3.food = some f1 := by
      intro gm hgf
      obtain ⟨ps, hps⟩ := Game.createExplosion_isSome { gm with score := gm.score + 10 }
        f.position.x f.position.y f.color pre rnd2 hlen
      rw [Game.eatFood_hit gm s head body f _ hseg hgf heq, hps]
      simp only [hsp]
      exact ⟨_, rfl, rfl⟩
    have htick : ∃ g3, Game.tick { g with lastTime := timestamp, accumulatedTime := 0 }
        (pre ++ rnd2) = some (g3, rnd1) ∧ g3.food = some f1 := by
      rw [Game.tick_eq { g with lastTime := timestamp, accumulatedTime := 0 } s0 s head body _
        hs0 hu hseg]
      split
      · exact hex _ ((Game.gameOver_fields _).2.2.2.2.trans hf)
      · exact hex _ hf
    obtain ⟨g3, h3, hfood⟩ := htick
    exact ⟨g3.updateParticles, Game.loop_tick_of g g3 timestamp _ rnd1 hp ht h3, hfood⟩
  · have hex : ∀ gm : Game, gm.food = some f → gm.score = g.score →
        ∃ g3, gm.eatFood s rnd = some (g3, rnd) ∧
          g3.score = g.score ∧ g3.snake = some s ∧ g3.food = some f := by
      intro gm hgf hsc
      rw [Game.eatFood_miss gm s head body f rnd hseg hgf hne]
      exact ⟨_, rfl, hsc, rfl, hgf⟩
    have htick : ∃ g3, Game.tick { g with lastTime := timestamp, accumulatedTime := 0 }
        rnd = some (g3, rnd) ∧ g3.score = g.score ∧ g3.snake = some s ∧ g3.food = some f := by
      rw [Game.tick_eq { g with lastTime := timestamp, accumulatedTime := 0 } s0 s head body rnd
        hs0 hu hseg]
      split
      · exact hex _ ((Game.gameOver_fields _).2.2.2.2.trans hf) (Game.gameOver_fields _).2.2.2.1
      · exact hex _ hf rfl
    obtain ⟨g3, h3, a, b, c⟩ := htick
    exact ⟨g3.updateParticles, Game.loop_tick_of g g3 timestamp rnd rnd hp ht h3, a, b, c⟩

/-- Witness of C8: the snake eats the food in front of its head; the 60 draws of the
particles and the three draws of `Food.spawn` are all 0. -/
theorem Game.loop_eat_witness :
    Snake.new.update = some ⟨[⟨11, 10⟩, ⟨10, 10⟩, ⟨9, 10⟩], ⟨1, 0⟩, ⟨1, 0⟩, 0⟩ ∧
    (exampleMeal.loop 101 (List.replicate 60 0 ++ [0, 0, 0])).map
        (fun r => (r.1.score, r.1.snake.map Snake.growPending, r.1.food.map Food.position,
          r.2)) =
      some (10, some 1, some ⟨0, 0⟩, []) := by
  have hu : Snake.new.update = some ⟨[⟨11, 10⟩, ⟨10, 10⟩, ⟨9, 10⟩], ⟨1, 0⟩, ⟨1, 0⟩, 0⟩ := by
    decide
  refine ⟨hu, ?_⟩
  have hsp : (⟨600, 400, 30, 20, ⟨11, 10⟩, COLOR_FOOD⟩ : Food).spawn
      [⟨11, 10⟩, ⟨10, 10⟩, ⟨9, 10⟩] [0, 0, 0] =
      some (⟨600, 400, 30, 20, ⟨0, 0⟩, COLOR_FOOD_ALT⟩, []) := by
    norm_num [Food.spawn, Food.spawnLoop, Food.onSnake, binary64_zero]
  obtain ⟨hhit, _⟩ :=
    Game.loop_eat exampleMeal 101 Snake.new
      ⟨[⟨11, 10⟩, ⟨10, 10⟩, ⟨9, 10⟩], ⟨1, 0⟩, ⟨1, 0⟩, 0⟩
      ⟨600, 400, 30, 20, ⟨11, 10⟩, COLOR_FOOD⟩ ⟨11, 10⟩ [⟨10, 10⟩, ⟨9, 10⟩] rfl
      (by norm_num [exampleMeal, exampleGame, GAME_SPEED]) rfl rfl hu rfl
  obtain ⟨hscore, hret⟩ := hhit rfl
  obtain ⟨g1, hg1, hfood⟩ := hret (List.replicate 60 0) [0, 0, 0] _ [] (by simp) hsp
  obtain ⟨hsc, s1, hs1, hgp, _⟩ := hscore _ g1 [] hg1
  rw [hg1]
  simp only [Option.map_some', hsc, hs1, hgp, hfood]
  rfl

/-! ## Game: start and restart -/

theorem Food.new_cons (canvasWidth canvasHeight : Int) (a b c : ℚ) (rest : List ℚ) :
    Food.new canvasWidth canvasHeight (a :: b :: c :: rest) =
      some (⟨canvasWidth, canvasHeight, canvasWidth / 20, canvasHeight / 20,
        Food.candidate (canvasWidth / 20) (canvasHeight / 20) (a, b), COLOR_FOOD⟩, rest) := by
  simp [Food.new, Food.spawn, Food.spawnLoop, Food.onSnake, Food.candidate, GRID_SIZE]

theorem Game.start_rounds (g : Game) (a b c : ℚ) (rejected : List (ℚ × ℚ)) (p : ℚ × ℚ)
    (c1 : ℚ) (rest : List ℚ)
    (hrej : ∀ q ∈ rejected,
      Food.candidate ((g.canvasWidth : Int) / 20) ((g.canvasHeight : Int) / 20) q ∈
        Snake.new.segments)
    (hacc : Food.candidate ((g.canvasWidth : Int) / 20) ((g.canvasHeight : Int) / 20) p ∉
        Snake.new.segments) :
    g.start (a :: b :: c :: (roundDraws rejected ++ p.1 :: p.2 :: c1 :: rest)) =
      some ({ g with
        snake := some Snake.new,
        food := some ⟨g.canvasWidth, g.canvasHeight,
          (g.canvasWidth : Int) / 20, (g.canvasHeight : Int) / 20,
          Food.candidate ((g.canvasWidth : Int) / 20) ((g.canvasHeight : Int) / 20) p,
          if c1 > 1 / 2 then COLOR_FOOD else COLOR_FOOD_ALT⟩,
        particles := [], score := 0, accumulatedTime := 0,
        state := GameState.PLAYING }, rest) := by
  unfold Game.start Game.initEntities
  simp only [Food.new_cons]
  rw [Food.spawn_rounds _ Snake.new.segments rejected p c1 rest hrej hacc]

/-- Claim C10. From every game state, `restart()` is `start()`, and a `start()` that
returns gives state `PLAYING`, score 0, the snake (10,10), (9,10), (8,10) with
`direction` and `nextDirection` (1,0) and `growPending` 0, no particles,
`accumulatedTime` 0, a food position on no segment of the snake, and the old
`highScore`. It does return: after the three draws of the `Food` constructor, any
number of rounds of `Food.spawn` whose candidate is on the snake, and a round whose
candidate is not, it ends with the colour draw and places the food on that candidate. -/
theorem Game.start_spec (g : Game) :
    (∀ rnd, g.restart rnd = g.start rnd) ∧
    (∀ rnd g1 rnd1, g.start rnd = some (g1, rnd1) →
      g1.state = GameState.PLAYING ∧ g1.score = 0 ∧
      g1.snake = some ⟨[⟨10, 10⟩, ⟨9, 10⟩, ⟨8, 10⟩], ⟨1, 0⟩, ⟨1, 0⟩, 0⟩ ∧
      g1.particles = [] ∧ g1.accumulatedTime = 0 ∧
      (∃ f, g1.food = some f ∧
        ∀ segment ∈ ([⟨10, 10⟩, ⟨9, 10⟩, ⟨8, 10⟩] : List Coord), segment ≠ f.position) ∧
      g1.highScore = g.highScore) ∧
    (∀ (a b c : ℚ) (rejected : List (ℚ × ℚ)) (p : ℚ × ℚ) (c1 : ℚ) (rest : List ℚ),
      (∀ q ∈ rejected,
        Food.candidate ((g.canvasWidth : Int) / 20) ((g.canvasHeight : Int) / 20) q ∈
          ([⟨10, 10⟩, ⟨9, 10⟩, ⟨8, 10⟩] : List Coord)) →
      Food.candidate ((g.canvasWidth : Int) / 20) ((g.canvasHeight : Int) / 20) p ∉
          ([⟨10, 10⟩, ⟨9, 10⟩, ⟨8, 10⟩] : List Coord) →
      ∃ g1 f,
        g.start (a :: b :: c :: (roundDraws rejected ++ p.1 :: p.2 :: c1 :: rest)) =
          some (g1, rest) ∧
        g1.food = some f ∧
        f.position =
          Food.candidate ((g.canvasWidth : Int) / 20) ((g.canvasHeight : Int) / 20) p) := by
  refine ⟨fun _ => rfl, ?_, ?_⟩
  · intro rnd g1 rnd1 h
    obtain ⟨food0, rnd0, f, _, hsp, hg⟩ := Game.start_some g g1 rnd rnd1 h
    obtain ⟨_, _, _, _, hn, _⟩ := Food.spawn_some _ _ _ _ _ hsp
    subst hg
    refine ⟨rfl, rfl, rfl, rfl, rfl, ⟨f, rfl, ?_⟩, rfl⟩
    intro segment hm heq
    exact hn (heq ▸ hm)
  · intro a b c rejected p c1 rest hrej hacc
    exact ⟨_, _, Game.start_rounds g a b c rejected p c1 rest hrej hacc, rfl, rfl⟩

/-- Witness of C10: a start from the menu on a canvas of 600 by 400 pixels; the first
candidate (10,10) is on the snake, the second candidate (0,5) is kept. -/
theorem Game.start_spec_witness :
    ((Game.new 600 400 7).start [0, 0, 0, 11 / 32, 1 / 2, 0, 1 / 4, 3 / 4]).map
        (fun r => (r.1.state, r.1.score, r.1.highScore, r.1.food.map Food.position, r.2)) =
      some (GameState.PLAYING, 0, 7, some ⟨0, 5⟩, []) := by
  have tx : ((Game.new 600 400 7).canvasWidth : Int) / 20 = 30 := by decide
  have ty : ((Game.new 600 400 7).canvasHeight : Int) / 20 = 20 := by decide
  obtain ⟨_, hprops, hret⟩ := Game.start_spec (Game.new 600 400 7)
  obtain ⟨g1, f, hg1, hf, hpos⟩ := hret 0 0 0 [(11 / 32, 1 / 2)] (0, 1 / 4) (3 / 4) []
    (by
      intro q hq
      have hq1 : q = (11 / 32, 1 / 2) := by simpa using hq
      subst hq1
      rw [tx, ty, Food.candidate_on_snake]
      simp)
    (by
      rw [tx, ty, Food.candidate_left_edge]
      simp)
  have hg2 : (Game.new 600 400 7).start [0, 0, 0, 11 / 32, 1 / 2, 0, 1 / 4, 3 / 4] =
      some (g1, []) := hg1
  obtain ⟨h1, h2, _, _, _, _, h7⟩ := hprops _ g1 [] hg2
  have hp : f.position = ⟨0, 5⟩ := by
    rw [hpos, tx, ty, Food.candidate_left_edge]
  rw [hg2]
  simp only [Option.map_some', h1, h2, h7, hf, hp]
  rfl

/-! ## Game: the grid of a session -/

theorem Game.tick_hit (g : Game) (s0 s : Snake) (head : Coord) (body : List Coord) (f f1 : Food)
    (pre rnd2 rnd1 : List ℚ) (hs0 : g.snake = some s0) (hu : s0.update = some s)
    (hseg : s.segments = head :: body) (hf : g.food = some f) (heq : head = f.position)
    (hlen : pre.length = 60) (hsp : f.spawn s.segments rnd2 = some (f1, rnd1)) :
    ∃ g3, g.tick (pre ++ rnd2) = some (g3, rnd1) ∧ g3.food = some f1 := by
  have hex : ∀ gm : Game, gm.food = some f →
      ∃ g3, gm.eatFood s (pre ++ rnd2) = some (g3, rnd1) ∧ g3.food = some f1 := by
    intro gm hgf
    obtain ⟨ps, hps⟩ := Game.createExplosion_isSome { gm with score := gm.score + 10 }
      f.position.x f.position.y f.color pre rnd2 hlen
    rw [Game.eatFood_hit gm s head body f _ hseg hgf heq, hps]
    simp only [hsp]
    exact ⟨_, rfl, rfl⟩
  rw [Game.tick_eq g s0 s head body _ hs0 hu hseg]
  split
  · exact hex _ ((Game.gameOver_fields _).2.2.2.2.trans hf)
  · exact hex _ hf

theorem exampleMeal_start :
    (Game.new 600 400 0).start [0, 0, 0, 3 / 8, 1 / 2, 3 / 4] = some (exampleMeal, []) := by
  have tx : ((Game.new 600 400 0).canvasWidth : Int) / 20 = 30 := by decide
  have ty : ((Game.new 600 400 0).canvasHeight : Int) / 20 = 20 := by decide
  have h := Game.start_rounds (Game.new 600 400 0) 0 0 0 [] (3 / 8, 1 / 2) (3 / 4) []
    (fun q hq => absurd hq (List.not_mem_nil q))
    (by
      rw [tx, ty, Food.candidate_ahead]
      simp [Snake.new])
  rw [tx, ty, Food.candidate_ahead] at h
  rw [show ([0, 0, 0, 3 / 8, 1 / 2, 3 / 4] : List ℚ) =
    0 :: 0 :: 0 :: (roundDraws [] ++ ((3 / 8 : ℚ), (1 / 2 : ℚ)).1 ::
      ((3 / 8 : ℚ), (1 / 2 : ℚ)).2 :: 3 / 4 :: []) from rfl, h]
  norm_num [Game.new, exampleMeal, exampleGame]

/-- In a session in which the canvas is not resized, the check after the update is the
collision test on the grid `(tilesX, tilesY)` the session's `Food` was constructed with,
and a tick ends in `GAMEOVER` exactly on such a collision. -/
theorem Game.session_grid (g : Game) (hr : Game.Reachable false g) :
    ∃ s0 f, g.snake = some s0 ∧ g.food = some f ∧
      f.tilesX = (g.canvasWidth : Int) / 20 ∧ f.tilesY = (g.canvasHeight : Int) / 20 ∧
      ∀ s head body, s0.update = some s → s.segments = head :: body →
        s.checkCollision g.canvasWidth g.canvasHeight =
          some (decide (Collides f.tilesX f.tilesY head body)) ∧
        (∀ timestamp rnd g1 rnd1, g.state = GameState.PLAYING →
          g.accumulatedTime + (timestamp - g.lastTime) > GAME_SPEED →
          g.loop timestamp rnd = some (g1, rnd1) →
          (g1.state = GameState.GAMEOVER ↔ Collides f.tilesX f.tilesY head body)) := by
  obtain ⟨s0, f, hs0, hf, _, _, _, _, htiles⟩ := Game.reachable_invariant false g hr
  obtain ⟨tx, ty⟩ := htiles rfl
  refine ⟨s0, f, hs0, hf, tx, ty, ?_⟩
  intro s head body hu hseg
  refine ⟨?_, ?_⟩
  · rw [Snake.checkCollision_cons s head body _ _ hseg, tx, ty]
    rfl
  · intro timestamp rnd g1 rnd1 hp ht hl
    obtain ⟨g3, htick, hg⟩ := Game.loop_tick_some g g1 timestamp rnd rnd1 hp ht hl
    obtain ⟨_, _, hst, _⟩ :=
      Game.tick_some { g with lastTime := timestamp, accumulatedTime := 0 } g3 s0 s head body
        f rnd rnd1 hs0 hu hseg hf htick
    have hst1 : g1.state = g3.state := by rw [hg]; rfl
    rw [hst1, hst, tx, ty]
    constructor
    · intro hgo
      by_contra hC
      rw [if_neg hC] at hgo
      rw [hp] at hgo
      exact absurd hgo (by decide)
    · intro hC
      rw [if_pos hC]

/-- Claim C9 fails on the code. After `start()` on a canvas of 600 by 400 pixels the
`Food` has a grid of 30 by 20 tiles. A resize to 200 by 200 pixels during `PLAYING`
leaves the grid of the `Food` as it is and makes `checkCollision` of the next tick use
10 by 10 tiles: the head at (11,10), inside the grid of the `Food`, collides and the
game is over. When the food lies on that cell, at (11,10), the same tick ends the game
and eats the food: the state is `GAMEOVER` and the score is 10. -/
theorem Game.resize_changes_grid :
    Game.Reachable true ((exampleGame 600 400).resize 200 200) ∧
    ((exampleGame 600 400).resize 200 200).state = GameState.PLAYING ∧
    ((exampleGame 600 400).resize 200 200).food.map (fun f => (f.tilesX, f.tilesY)) =
      some (30, 20) ∧
    ((((exampleGame 600 400).resize 200 200).canvasWidth : Int) / 20,
      (((exampleGame 600 400).resize 200 200).canvasHeight : Int) / 20) = (10, 10) ∧
    Snake.new.update = some ⟨[⟨11, 10⟩, ⟨10, 10⟩, ⟨9, 10⟩], ⟨1, 0⟩, ⟨1, 0⟩, 0⟩ ∧
    (⟨[⟨11, 10⟩, ⟨10, 10⟩, ⟨9, 10⟩], ⟨1, 0⟩, ⟨1, 0⟩, 0⟩ : Snake).checkCollision
      ((exampleGame 600 400).resize 200 200).canvasWidth
      ((exampleGame 600 400).resize 200 200).canvasHeight = some true ∧
    (⟨[⟨11, 10⟩, ⟨10, 10⟩, ⟨9, 10⟩], ⟨1, 0⟩, ⟨1, 0⟩, 0⟩ : Snake).checkCollision 600 400 =
      some false ∧
    (((exampleGame 600 400).resize 200 200).loop 101 []).map (fun r => r.1.state) =
      some GameState.GAMEOVER ∧
    Game.Reachable true (exampleMeal.resize 200 200) ∧
    ((exampleMeal.resize 200 200).loop 101 (List.replicate 60 0 ++ [0, 0, 0])).map
        (fun r => (r.1.state, r.1.score, r.1.food.map Food.position)) =
      some (GameState.GAMEOVER, 10, some ⟨0, 0⟩) := by
  have hu : Snake.new.update = some ⟨[⟨11, 10⟩, ⟨10, 10⟩, ⟨9, 10⟩], ⟨1, 0⟩, ⟨1, 0⟩, 0⟩ := by
    decide
  refine ⟨?_, rfl, by decide, by decide, hu, by decide, by decide, ?_, ?_, ?_⟩
  · exact Game.Reachable.resize _ 200 200 rfl
      (exampleGame_reachable true 600 400 (by decide) (by decide))
  · rw [Game.loop_tick _ _ _ rfl
      (by norm_num [Game.resize, exampleGame, GAME_SPEED])]
    simp [Game.tick, Game.eatFood, Game.gameOver, Game.resize, Game.updateParticles,
      Snake.update, Snake.checkCollision, Snake.new, exampleGame, exampleFood, GRID_SIZE]
  · exact Game.Reachable.resize _ 200 200 rfl
      (Game.Reachable.start (Game.new 600 400 0) _ [0, 0, 0, 3 / 8, 1 / 2, 3 / 4] []
        Draws.examples.2.1 exampleMeal_start)
  · have hsp : (⟨600, 400, 30, 20, ⟨11, 10⟩, COLOR_FOOD⟩ : Food).spawn
        [⟨11, 10⟩, ⟨10, 10⟩, ⟨9, 10⟩] [0, 0, 0] =
        some (⟨600, 400, 30, 20, ⟨0, 0⟩, COLOR_FOOD_ALT⟩, []) := by
      norm_num [Food.spawn, Food.spawnLoop, Food.onSnake, binary64_zero]
    have hp : (exampleMeal.resize 200 200).state = GameState.PLAYING := rfl
    have ht : (exampleMeal.resize 200 200).accumulatedTime +
        (101 - (exampleMeal.resize 200 200).lastTime) > GAME_SPEED := by
      norm_num [Game.resize, exampleMeal, exampleGame, GAME_SPEED]
    obtain ⟨g3, htick, hfood⟩ :=
      Game.tick_hit { exampleMeal.resize 200 200 with lastTime := 101, accumulatedTime := 0 }
        Snake.new ⟨[⟨11, 10⟩, ⟨10, 10⟩, ⟨9, 10⟩], ⟨1, 0⟩, ⟨1, 0⟩, 0⟩ ⟨11, 10⟩
        [⟨10, 10⟩, ⟨9, 10⟩] ⟨600, 400, 30, 20, ⟨11, 10⟩, COLOR_FOOD⟩
        ⟨600, 400, 30, 20, ⟨0, 0⟩, COLOR_FOOD_ALT⟩ (List.replicate 60 0) [0, 0, 0] []
        rfl hu rfl rfl rfl (by simp) hsp
    obtain ⟨_, _, hst, hcase⟩ :=
      Game.tick_some { exampleMeal.resize 200 200 with lastTime := 101, accumulatedTime := 0 }
        g3 Snake.new ⟨[⟨11, 10⟩, ⟨10, 10⟩, ⟨9, 10⟩], ⟨1, 0⟩, ⟨1, 0⟩, 0⟩ ⟨11, 10⟩
        [⟨10, 10⟩, ⟨9, 10⟩] ⟨600, 400, 30, 20, ⟨11, 10⟩, COLOR_FOOD⟩ _ [] rfl hu rfl rfl htick
    rw [Game.loop_tick_of _ g3 101 _ [] hp ht htick]
    have hover : g3.state = GameState.GAMEOVER := by
      rw [hst]
      exact if_pos (by decide)
    have hscore : g3.score = 10 := by
      rcases hcase with ⟨_, _, hsc, _⟩ | ⟨hne, _⟩
      · exact hsc
      · exact absurd rfl hne
    have e1 : g3.updateParticles.state = g3.state := rfl
    have e2 : g3.updateParticles.score = g3.score := rfl
    have e3 : g3.updateParticles.food = g3.food := rfl
    simp only [Option.map_some', e1, e2, e3, hover, hscore, hfood]

end NeonSnake
